import Mathlib

/-!
Verification development for the rise-gym-qr repository.

The Python sources are shallowly embedded as Lean definitions:

* `src/src/core/qr_generator.py` (`RiseGymQRGenerator.generate_qr_data`):
  payload encoder with pytz `America/New_York` normalization;
* `src/src/core/qr_analyzer.py` (`RiseGymQRAnalyzer`): filename parsing,
  directory aggregation and JSON persistence;
* `src/qr_exact_matcher.py` (`ExactQRMatcher`): raster comparison,
  structure analysis and the parameter sweep;
* `src/qr_parameter_finder.py` / `src/qr_perfect_match.py`: the other two
  raster comparators;
* `src/qr_deep_analyzer.py`: run-length seeding of the module-size estimate.

Machine integers are modelled with `Nat`/`Int`.  Python float similarity
percentages and error rates are exact ratios of pixel counts in the source;
they are modelled by explicit numerator/denominator pairs (`Frac`) compared
by cross-multiplication, with `Frac.toRat : Frac → ℚ` giving their value.
Grayscale rasters are modelled post-binarization: a pixel is `true` iff its
luminance is below the threshold 128 used uniformly by the sources (dark).
-/

namespace RiseGym

/-- Wall-clock datetime fields, as carried by a Python `datetime` (seconds are
never consulted by the embedded code paths and are omitted). -/
structure WallClock where
  year : ℕ
  month : ℕ
  day : ℕ
  hour : ℕ
  minute : ℕ
deriving DecidableEq, Repr

/-- The validity envelope of Python `datetime`: `datetime.MINYEAR = 1`,
`datetime.MAXYEAR = 9999`, months 1-12, days 1-31, hours 0-23, minutes 0-59. -/
def WallClock.Valid (w : WallClock) : Prop :=
  1 ≤ w.year ∧ w.year ≤ 9999 ∧ 1 ≤ w.month ∧ w.month ≤ 12 ∧
  1 ≤ w.day ∧ w.day ≤ 31 ∧ w.hour ≤ 23 ∧ w.minute ≤ 59

instance (w : WallClock) : Decidable w.Valid := by
  unfold WallClock.Valid
  infer_instance

/-- The character of a decimal digit. -/
def digitChar (d : ℕ) : Char := Char.ofNat (48 + d)

/-- Zero-padding to width 2, the behaviour of `"%02d" % n` / `f"{n:02d}"`:
the two low decimal digits when `n < 100`, the full decimal form beyond. -/
def pad2 (n : ℕ) : String :=
  if n < 100 then ⟨[digitChar (n / 10 % 10), digitChar (n % 10)]⟩
  else Nat.repr n

/-- Zero-padding to width 4, the behaviour of `strftime("%Y")` on a
4-digit-capable year field: the four low decimal digits when `n < 10000`,
the full decimal form beyond. -/
def pad4 (n : ℕ) : String :=
  if n < 10000 then
    ⟨[digitChar (n / 1000 % 10), digitChar (n / 100 % 10),
      digitChar (n / 10 % 10), digitChar (n % 10)]⟩
  else Nat.repr n

/-- `dt.strftime("%m%d%Y")` from `generate_qr_data`. -/
def dateStrMMDDYYYY (w : WallClock) : String :=
  pad2 w.month ++ pad2 w.day ++ pad4 w.year

/-- `slot_hour = (dt.hour // 2) * 2` from `generate_qr_data`. -/
def slotHour (hour : ℕ) : ℕ := hour / 2 * 2

/-- The suffix seconds of `generate_qr_data`: `"01"` for the midnight slot,
`"00"` otherwise. -/
def slotSeconds (slot : ℕ) : String :=
  if slot = 0 then "01" else "00"

/-- `time_str = f"{slot_hour:02d}00{seconds}"` from `generate_qr_data`. -/
def timeStrOfWall (w : WallClock) : String :=
  pad2 (slotHour w.hour) ++ "00" ++ slotSeconds (slotHour w.hour)

/-- The payload built by `generate_qr_data` once the datetime is in Eastern
wall-clock form: facility code, date, time slot string. -/
def payloadOfWall (w : WallClock) : String :=
  "9268" ++ dateStrMMDDYYYY w ++ timeStrOfWall w

/-- Days since 1970-01-01 of a proleptic Gregorian civil date
(the standard era-based algorithm; used to embed `datetime` arithmetic). -/
def daysFromCivil (y m d : ℤ) : ℤ :=
  let y' : ℤ := if m ≤ 2 then y - 1 else y
  let era : ℤ := (if 0 ≤ y' then y' else y' - 399) / 400
  let yoe : ℤ := y' - era * 400
  let mp : ℤ := (m + 9) % 12
  let doy : ℤ := (153 * mp + 2) / 5 + d - 1
  let doe : ℤ := yoe * 365 + yoe / 4 - yoe / 100 + doy
  era * 146097 + doe - 719468

/-- Inverse of `daysFromCivil`: the civil date of a day number. -/
def civilFromDays (z0 : ℤ) : ℤ × ℤ × ℤ :=
  let z : ℤ := z0 + 719468
  let era : ℤ := (if 0 ≤ z then z else z - 146096) / 146097
  let doe : ℤ := z - era * 146097
  let yoe : ℤ := (doe - doe / 1460 + doe / 36524 - doe / 146096) / 365
  let y : ℤ := yoe + era * 400
  let doy : ℤ := doe - (365 * yoe + yoe / 4 - yoe / 100)
  let mp : ℤ := (5 * doy + 2) / 153
  let d : ℤ := doy - (153 * mp + 2) / 5 + 1
  let m : ℤ := if mp < 10 then mp + 3 else mp - 9
  (if m ≤ 2 then y + 1 else y, m, d)

/-- Minutes since the epoch 1970-01-01 00:00 of a wall-clock reading taken at
face value (no timezone applied). -/
def minutesOfWall (w : WallClock) : ℤ :=
  daysFromCivil (w.year : ℤ) (w.month : ℤ) (w.day : ℤ) * 1440
    + (w.hour : ℤ) * 60 + (w.minute : ℤ)

/-- Wall-clock reading of a minute count since the epoch. -/
def wallOfMinutes (t : ℤ) : WallClock :=
  let days : ℤ := t / 1440 - (if t % 1440 < 0 then 1 else 0)
  let rest : ℤ := t - days * 1440
  let ymd := civilFromDays days
  ⟨ymd.1.toNat, ymd.2.1.toNat, ymd.2.2.toNat, (rest / 60).toNat, (rest % 60).toNat⟩

/-- Day of week of a day number, `0` = Sunday (1970-01-01 was a Thursday). -/
def weekdayOfDays (z : ℤ) : ℤ := (z + 4) % 7

/-- Day of month of the second Sunday of March of a year. -/
def secondSundayMarch (y : ℤ) : ℤ :=
  8 + (7 - weekdayOfDays (daysFromCivil y 3 8)) % 7

/-- Day of month of the first Sunday of November of a year. -/
def firstSundayNov (y : ℤ) : ℤ :=
  1 + (7 - weekdayOfDays (daysFromCivil y 11 1)) % 7

/-- Instant (minutes since epoch, UTC) at which US daylight saving time starts
in a year: second Sunday of March, 02:00 EST = 07:00 UTC (post-2007 rule of
the `America/New_York` zone used by `pytz` in `qr_generator.py`). -/
def dstStartMin (y : ℤ) : ℤ :=
  daysFromCivil y 3 (secondSundayMarch y) * 1440 + 7 * 60

/-- Instant at which US daylight saving time ends in a year: first Sunday of
November, 02:00 EDT = 06:00 UTC. -/
def dstEndMin (y : ℤ) : ℤ :=
  daysFromCivil y 11 (firstSundayNov y) * 1440 + 6 * 60

/-- Whether an instant falls inside the `America/New_York` daylight saving
window of its (UTC) year. -/
def isEasternDST (t : ℤ) : Bool :=
  let y : ℤ := ((wallOfMinutes t).year : ℤ)
  decide (dstStartMin y ≤ t ∧ t < dstEndMin y)

/-- UTC offset of `America/New_York` at an instant, in minutes. -/
def easternOffsetMin (t : ℤ) : ℤ :=
  if isEasternDST t then -240 else -300

/-- Eastern wall-clock reading of an instant: the model of
`dt.astimezone(pytz.timezone("America/New_York"))`. -/
def easternWallOfInstant (t : ℤ) : WallClock :=
  wallOfMinutes (t + easternOffsetMin t)

/-- A Python `datetime` as consumed by `generate_qr_data`: wall-clock fields
plus, when timezone-aware, the UTC offset (in minutes) of its `tzinfo`. -/
structure PyDatetime where
  wall : WallClock
  utcOffsetMin : Option ℤ
deriving DecidableEq, Repr

/-- The instant denoted by an aware datetime. -/
def instantOfAware (w : WallClock) (offset : ℤ) : ℤ :=
  minutesOfWall w - offset

/-- The normalization prologue of `generate_qr_data`: a naive datetime is
localized (wall fields kept, interpreted as Eastern), an aware one is
converted with `astimezone` (instant kept, wall fields recomputed). -/
def normalizeEastern (dt : PyDatetime) : WallClock :=
  match dt.utcOffsetMin with
  | none => dt.wall
  | some offset => easternWallOfInstant (instantOfAware dt.wall offset)

/-- `RiseGymQRGenerator.generate_qr_data` (src/src/core/qr_generator.py,
lines 42-65). -/
def generateQRData (dt : PyDatetime) : String :=
  payloadOfWall (normalizeEastern dt)

/-- The analyzer's suffix rule dictionary lookup
(`self.pattern['suffix_rule']`): slot 0 maps to `"01"`, default `"00"`. -/
def suffixRule (slot : ℕ) : String :=
  if slot = 0 then "01" else "00"

/-- `RiseGymQRAnalyzer.predict_qr_data` (src/src/core/qr_analyzer.py,
lines 44-60). -/
def predictQRData (dt : WallClock) : String :=
  "9268" ++ dateStrMMDDYYYY dt
    ++ (pad2 (slotHour dt.hour) ++ "00" ++ suffixRule (slotHour dt.hour))

/-- Index (0-based) of the last `'.'` of a character list, if any. -/
def lastDotIdx : List Char → Option ℕ
  | [] => none
  | c :: t =>
    match lastDotIdx t with
    | some i => some (i + 1)
    | none => if c = '.' then some 0 else none

/-- `pathlib.Path(name).stem`: the name without its final suffix; a dot at
position 0 does not start a suffix. -/
def stemOf (name : String) : String :=
  match lastDotIdx name.data with
  | some i => if 1 ≤ i then ⟨name.data.take i⟩ else name
  | none => name

/-- `int(...)` on a digit string, as used on filename slices. -/
def digitsToNat (cs : List Char) : ℕ :=
  cs.foldl (fun a c => a * 10 + (c.toNat - 48)) 0

/-- Gregorian leap-year test (`datetime`'s calendar). -/
def isLeapYear (y : ℕ) : Bool :=
  y % 4 = 0 && (y % 100 ≠ 0 || y % 400 = 0)

/-- Number of days of a month of a year, as validated by `datetime`. -/
def daysInMonth (y m : ℕ) : ℕ :=
  if m = 2 then (if isLeapYear y then 29 else 28)
  else if m = 4 ∨ m = 6 ∨ m = 9 ∨ m = 11 then 30
  else 31

/-- Whether `datetime(year, month, day, hour, minute)` succeeds. -/
def validDate (y m d h mi : ℕ) : Bool :=
  1 ≤ y && y ≤ 9999 && 1 ≤ m && m ≤ 12 && 1 ≤ d && d ≤ daysInMonth y m
    && h < 24 && mi < 60

/-- Outcome of `RiseGymQRAnalyzer.analyze_filename`: a parsed timestamp, the
`None` return for stems that are not 12 digits, or the uncaught `ValueError`
raised by the `datetime` constructor on a 12-digit stem that is not a valid
timestamp. -/
inductive FnameResult where
  | parsed (dt : WallClock)
  | notTimestamp
  | invalidDate
deriving DecidableEq, Repr

/-- `RiseGymQRAnalyzer.analyze_filename` (src/src/core/qr_analyzer.py,
lines 30-42): accepts exactly 12-digit stems `YYYYMMDDHHMM`. -/
def analyzeFilename (filename : String) : FnameResult :=
  let base := stemOf filename
  if base.length = 12 ∧ base.data.all Char.isDigit then
    let y := digitsToNat (base.data.take 4)
    let mo := digitsToNat ((base.data.drop 4).take 2)
    let d := digitsToNat ((base.data.drop 6).take 2)
    let h := digitsToNat ((base.data.drop 8).take 2)
    let mi := digitsToNat ((base.data.drop 10).take 2)
    if validDate y mo d h mi then .parsed ⟨y, mo, d, h, mi⟩ else .invalidDate
  else .notTimestamp

/-- A file of the sample directory: its name and the payload actually encoded
in its QR body (the latter is never read by the aggregator; it is carried so
that conformance of a sample can be stated). -/
structure SampleFile where
  name : String
  actualData : String
deriving DecidableEq, Repr

/-- One entry of the aggregator's `predictions` list. -/
structure Prediction where
  filename : String
  datetimeIso : String
  predictedData : String
deriving DecidableEq, Repr

/-- The `results` dictionary built by `RiseGymQRAnalyzer.analyze_directory`. -/
structure AnalyzeResults where
  files_analyzed : ℕ
  pattern_confirmed : Bool
  dateMin : Option WallClock
  dateMax : Option WallClock
  timeSlots : List (String × ℕ)
  predictions : List Prediction
deriving DecidableEq, Repr

/-- Lexicographic `datetime` comparison (strict), seconds all zero. -/
def dtLt (a b : WallClock) : Bool :=
  if a.year ≠ b.year then a.year < b.year
  else if a.month ≠ b.month then a.month < b.month
  else if a.day ≠ b.day then a.day < b.day
  else if a.hour ≠ b.hour then a.hour < b.hour
  else a.minute < b.minute

/-- `datetime.isoformat()` with zero seconds. -/
def isoFormat (w : WallClock) : String :=
  pad4 w.year ++ "-" ++ pad2 w.month ++ "-" ++ pad2 w.day ++ "T"
    ++ pad2 w.hour ++ ":" ++ pad2 w.minute ++ ":00"

/-- The slot label `f"{slot_hour:02d}:00-{(slot_hour+2)%24:02d}:00"`. -/
def slotLabel (slot : ℕ) : String :=
  pad2 slot ++ ":00-" ++ pad2 ((slot + 2) % 24) ++ ":00"

/-- `Counter[key] += 1`: increment in place, else append (dict insertion
order, as Python's `Counter` keeps it). -/
def counterAdd : List (String × ℕ) → String → List (String × ℕ)
  | [], k => [(k, 1)]
  | (k', n) :: t, k => if k' = k then (k', n + 1) :: t else (k', n) :: counterAdd t k

/-- The per-file update of `analyze_directory` for a parseable filename:
date-range widening, slot counting, prediction recording. -/
def updateResults (res : AnalyzeResults) (name : String) (dt : WallClock) :
    AnalyzeResults :=
  { res with
    dateMin := some (match res.dateMin with
      | none => dt
      | some m => if dtLt dt m then dt else m)
    dateMax := some (match res.dateMax with
      | none => dt
      | some m => if dtLt m dt then dt else m)
    timeSlots := counterAdd res.timeSlots (slotLabel (slotHour dt.hour))
    predictions := res.predictions
      ++ [⟨name, isoFormat dt, predictQRData dt⟩] }

/-- The `for svg_file in sorted(svg_files)` loop of `analyze_directory`;
`none` models the uncaught `ValueError` of `analyze_filename` on a 12-digit
stem that is not a valid timestamp. -/
def analyzeLoop : AnalyzeResults → List SampleFile → Option AnalyzeResults
  | res, [] => some res
  | res, f :: rest =>
    match analyzeFilename f.name with
    | .invalidDate => none
    | .notTimestamp => analyzeLoop res rest
    | .parsed dt => analyzeLoop (updateResults res f.name dt) rest

/-- Lexicographic comparison of character lists by code point, the order
Python uses on the path strings fed to `sorted`. -/
def charListLe : List Char → List Char → Bool
  | [], _ => true
  | _ :: _, [] => false
  | a :: s, b :: t =>
    if a.toNat < b.toNat then true
    else if b.toNat < a.toNat then false
    else charListLe s t

/-- Whether `s` ends with `t` (the `*.svg` glob test on file names). -/
def strEndsWith (s t : String) : Bool :=
  s.data.drop (s.data.length - t.data.length) == t.data

/-- Insert into a sorted list, before the first element not below `a`
(keeps the insertion stable, as Python's `sorted` is). -/
def insertSorted (le : SampleFile → SampleFile → Bool) (a : SampleFile) :
    List SampleFile → List SampleFile
  | [] => [a]
  | b :: t => if le a b then a :: b :: t else b :: insertSorted le a t

/-- Stable insertion sort (the observable behaviour of Python's
`sorted`). -/
def insertionSort (le : SampleFile → SampleFile → Bool) :
    List SampleFile → List SampleFile
  | [] => []
  | a :: t => insertSorted le a (insertionSort le t)

/-- `Path(directory).glob('*.svg')` then `sorted(...)`: the `.svg` files of
the directory in name order. -/
def sortedSvgFiles (files : List SampleFile) : List SampleFile :=
  insertionSort (fun a b => charListLe a.name.data b.name.data)
    (files.filter (fun f => strEndsWith f.name ".svg"))

/-- `RiseGymQRAnalyzer.analyze_directory` (src/src/core/qr_analyzer.py,
lines 62-96). `pattern_confirmed` is initialized to `True`. -/
def analyzeDirectory (files : List SampleFile) : Option AnalyzeResults :=
  let svgs := sortedSvgFiles files
  analyzeLoop ⟨svgs.length, true, none, none, [], []⟩ svgs

/-- The `save_data` dictionary persisted by
`RiseGymQRAnalyzer.save_analysis`; `analysis_date` holds
`datetime.now().isoformat()`, made an explicit argument here.  The constant
`pattern` dictionary is represented by its facility-code entry. -/
structure SavedAnalysis where
  analysis_date : String
  files_analyzed : ℕ
  pattern_confirmed : Bool
  dateMinIso : Option String
  dateMaxIso : Option String
  timeSlots : List (String × ℕ)
  patternFacilityCode : String
  predictions : List Prediction
deriving DecidableEq, Repr

/-- `RiseGymQRAnalyzer.save_analysis` (src/src/core/qr_analyzer.py,
lines 98-117), with the wall clock `datetime.now().isoformat()` passed in as
`nowIso`. -/
def saveAnalysis (res : AnalyzeResults) (nowIso : String) : SavedAnalysis :=
  { analysis_date := nowIso
    files_analyzed := res.files_analyzed
    pattern_confirmed := res.pattern_confirmed
    dateMinIso := res.dateMin.map isoFormat
    dateMaxIso := res.dateMax.map isoFormat
    timeSlots := res.timeSlots
    patternFacilityCode := "9268"
    predictions := res.predictions }

/-- A binarized raster: `rows` holds one list per pixel row, `true` marking a
dark pixel (grayscale value `< 128`, the threshold used by every comparator
and analyzer in the sources). -/
structure Raster where
  w : ℕ
  h : ℕ
  rows : List (List Bool)
deriving DecidableEq, Repr

/-- Pixel lookup (out-of-range reads as light, never reached in-bounds). -/
def Raster.px (r : Raster) (y x : ℕ) : Bool :=
  (r.rows.getD y []).getD x false

/-- Build a raster of given dimensions from a pixel function. -/
def mkRaster (W H : ℕ) (f : ℕ → ℕ → Bool) : Raster :=
  ⟨W, H, (List.range H).map (fun y => (List.range W).map (fun x => f y x))⟩

/-- Source pixel index of PIL's `Image.NEAREST` resize for one axis:
`floor((i + 0.5) * srcLen / dstLen)`, clamped into range. -/
def srcIdx (i srcLen dstLen : ℕ) : ℕ :=
  min ((2 * i + 1) * srcLen / (2 * dstLen)) (srcLen - 1)

/-- `img.resize((W, H), Image.NEAREST)`. -/
def resizeNearest (r : Raster) (W H : ℕ) : Raster :=
  mkRaster W H (fun y x => r.px (srcIdx y r.h H) (srcIdx x r.w W))

/-- Number of grid positions `(y, x)` with `y < H`, `x < W` satisfying `p`. -/
def countGrid (W H : ℕ) (p : ℕ → ℕ → Bool) : ℕ :=
  ((List.range H).map (fun y => (List.range W).countP (fun x => p y x))).sum

/-- An exact nonnegative ratio `num / den`.  The sources carry these values
as Python floats; every decision the embedded algorithms take on them is a
comparison of two such ratios, modelled exactly by cross-multiplication.
(`den = 0` gives the float `nan`, whose comparisons are all false; it is
unreachable on the analyzed paths, which divide by positive pixel counts.) -/
structure Frac where
  num : ℕ
  den : ℕ
deriving DecidableEq, Repr

/-- The rational value of a ratio. -/
def Frac.toRat (s : Frac) : ℚ := (s.num : ℚ) / (s.den : ℚ)

/-- Strict ratio comparison by cross-multiplication. -/
def Frac.ltb (a b : Frac) : Bool := a.num * b.den < b.num * a.den

/-- Ratio comparison by cross-multiplication. -/
def Frac.leb (a b : Frac) : Bool := a.num * b.den ≤ b.num * a.den

/-- Binarized pixel-agreement percentage over `a`'s grid (`np.sum(arr1 ==
arr2) / arr1.size * 100`), `b'` already of `a`'s dimensions. -/
def agreementPercent (a b' : Raster) : Frac :=
  ⟨countGrid a.w a.h (fun y x => a.px y x == b'.px y x) * 100, a.w * a.h⟩

/-- The exact zero percentage (`0.0`). -/
def zeroPercent : Frac := ⟨0, 1⟩

/-- `ExactQRMatcher.compare_images` (src/qr_exact_matcher.py, lines 203-221):
resamples `b` to `a`'s dimensions with nearest-neighbor when they differ,
then scores binarized agreement. -/
def exactCompare (a b : Raster) : Frac :=
  let b' := if a.w = b.w ∧ a.h = b.h then b else resizeNearest b a.w a.h
  agreementPercent a b'

/-- `compare_qr_images` (src/qr_parameter_finder.py, lines 50-65): returns
`0.0` outright when dimensions differ. -/
def pfCompare (a b : Raster) : Frac :=
  if a.w = b.w ∧ a.h = b.h then agreementPercent a b else zeroPercent

/-- `compare_images` (src/qr_perfect_match.py, lines 46-63): returns
`(0.0, None)` when dimensions differ, else the score and the difference
map. -/
def pmCompare (a b : Raster) : Frac × Option Raster :=
  if a.w = b.w ∧ a.h = b.h then
    (agreementPercent a b, some (mkRaster a.w a.h (fun y x => a.px y x != b.px y x)))
  else (zeroPercent, none)

/-- The four error-correction levels of the `qrcode` library constants. -/
inductive ECLevel where
  | L
  | M
  | Q
  | H
deriving DecidableEq, Repr

/-- Numeric-mode character capacity of the encoding standard per version and
error-correction level (the capacity table enforced by the `qrcode` library;
the spec fixes version 1 at 41/34/27/17).  Versions outside 1-8 are not
reachable from the embedded sweeps and are given capacity 0. -/
def numericCapacity (v : ℕ) (ec : ECLevel) : ℕ :=
  match v, ec with
  | 1, .L => 41
  | 1, .M => 34
  | 1, .Q => 27
  | 1, .H => 17
  | 2, .L => 77
  | 2, .M => 63
  | 2, .Q => 48
  | 2, .H => 34
  | 3, .L => 127
  | 3, .M => 101
  | 3, .Q => 77
  | 3, .H => 58
  | 4, .L => 187
  | 4, .M => 149
  | 4, .Q => 111
  | 4, .H => 82
  | 5, .L => 255
  | 5, .M => 202
  | 5, .Q => 144
  | 5, .H => 106
  | 6, .L => 322
  | 6, .M => 255
  | 6, .Q => 178
  | 6, .H => 139
  | 7, .L => 370
  | 7, .M => 293
  | 7, .Q => 207
  | 7, .H => 154
  | 8, .L => 461
  | 8, .M => 365
  | 8, .Q => 259
  | 8, .H => 202
  | _, _ => 0

/-- Module count of a symbol version: `version * 4 + 17`. -/
def modulesOfVersion (v : ℕ) : ℕ := 4 * v + 17

/-- The QR-encoding primitive the Symbol Renderer depends on (spec §4.2:
"a QR-encoding primitive, treated as a library capability"): the module
matrix produced by the `qrcode` library for a payload at a fixed version and
error-correction level.  Kept abstract; only indices below the version's
module count are ever consulted. -/
abbrev QRPrimitive := String → ℕ → ECLevel → (ℕ → ℕ → Bool)

/-- The raster painted by `qr.make_image(...)`: each of `n × n` modules as a
`box × box` block of dark or light pixels inside a `border`-module quiet
zone. -/
def renderRaster (M : ℕ → ℕ → Bool) (n box border : ℕ) : Raster :=
  mkRaster ((n + 2 * border) * box) ((n + 2 * border) * box)
    (fun y x =>
      if border * box ≤ y ∧ y < (n + border) * box
          ∧ border * box ≤ x ∧ x < (n + border) * box then
        M ((y - border * box) / box) ((x - border * box) / box)
      else false)

/-- One `qrcode.QRCode(...)`/`make(fit=False)`/`make_image` rendering
attempt: `none` models the exceptions the sweep callers catch — the
`ValueError` for a non-positive `box_size` or an out-of-range forced version,
and the `DataOverflowError` when the payload exceeds the version's capacity
at the requested error-correction level. -/
def renderOpt (qrm : QRPrimitive) (p : String) (v : ℕ) (ec : ECLevel)
    (box border : ℕ) : Option Raster :=
  if v < 1 ∨ 40 < v then none
  else if box < 1 then none
  else if numericCapacity v ec < p.length then none
  else some (renderRaster (qrm p v ec) (modulesOfVersion v) box border)

/-- Tail-recursive minimum accumulator. -/
def minListAux : Option ℕ → List ℕ → Option ℕ
  | acc, [] => acc
  | none, n :: t => minListAux (some n) t
  | some m, n :: t => if n < m then minListAux (some n) t else minListAux (some m) t

/-- Minimum of a list of naturals. -/
def minList (l : List ℕ) : Option ℕ := minListAux none l

/-- Tail-recursive maximum accumulator. -/
def maxListAux : Option ℕ → List ℕ → Option ℕ
  | acc, [] => acc
  | none, n :: t => maxListAux (some n) t
  | some m, n :: t => if m < n then maxListAux (some n) t else maxListAux (some m) t

/-- Maximum of a list of naturals. -/
def maxList (l : List ℕ) : Option ℕ := maxListAux none l

/-- Coordinates `(y, x)` of the dark pixels of a raster
(`np.where(arr < 128)`). -/
def darkCoords (r : Raster) : List (ℕ × ℕ) :=
  ((List.range r.h).map (fun y =>
    ((List.range r.w).filter (fun x => r.px y x)).map (fun x => (y, x)))).flatten

/-- Row indices of the dark pixels. -/
def darkYs (r : Raster) : List ℕ := (darkCoords r).map Prod.fst

/-- Column indices of the dark pixels. -/
def darkXs (r : Raster) : List ℕ := (darkCoords r).map Prod.snd

/-- The structure record produced by `ExactQRMatcher.analyze_qr_structure`. -/
structure QRFit where
  modules : ℕ
  moduleSize : ℕ
  errRate : Frac
  version : ℕ
  minX : ℕ
  minY : ℕ
  maxX : ℕ
  maxY : ℕ
  qrSize : ℕ
  quietZone : ℕ
  imageW : ℕ
  imageH : ℕ
deriving DecidableEq, Repr

/-- Dark-pixel count of the module region `(i, j)` of the cropped QR area:
rows `[i*ms, (i+1)*ms)`, columns `[j*ms, (j+1)*ms)` clipped (as numpy
slicing clips) to the cropped width. -/
def regionDark (qrPx : ℕ → ℕ → Bool) (ms regionW i j : ℕ) : ℕ :=
  countGrid (min ((j + 1) * ms) regionW - j * ms) ms
    (fun y x => qrPx (i * ms + y) (j * ms + x))

/-- Pixel count of the module region `(i, j)` (clipped as above). -/
def regionTotal (ms regionW j : ℕ) : ℕ :=
  ms * (min ((j + 1) * ms) regionW - j * ms)

/-- The inconsistency contribution of one sampled module: the region's mean
is below 128 iff `255 * light < 128 * total` (pixels are 0 or 255), and the
minority-color pixel count is added — `np.sum(region > 128)` for a dark
module, `np.sum(region < 128)` for a light one.  An empty region contributes
0 through either branch, as the numpy `nan` comparison does. -/
def regionErr (qrPx : ℕ → ℕ → Bool) (ms regionW i j : ℕ) : ℕ :=
  let total := regionTotal ms regionW j
  let dark := regionDark qrPx ms regionW i j
  let light := total - dark
  if 255 * light < 128 * total then light else dark

/-- Whether the module center sample guard `y < qr_size and x < qr_size` of
`analyze_qr_structure` admits module `(i, j)`. -/
def centerInBounds (qrSize ms i j : ℕ) : Bool :=
  i * ms + ms / 2 < qrSize && j * ms + ms / 2 < qrSize

/-- Total inconsistency over the sampled module grid. -/
def gridErr (qrPx : ℕ → ℕ → Bool) (qrSize ms regionW modules : ℕ) : ℕ :=
  ((List.range modules).map (fun i =>
    ((List.range modules).map (fun j =>
      if centerInBounds qrSize ms i j then regionErr qrPx ms regionW i j
      else 0)).sum)).sum

/-- Total sampled pixel count over the module grid. -/
def gridSamples (qrSize ms regionW modules : ℕ) : ℕ :=
  ((List.range modules).map (fun i =>
    ((List.range modules).map (fun j =>
      if centerInBounds qrSize ms i j then regionTotal ms regionW j
      else 0)).sum)).sum

/-- One iteration of the `for modules in range(21, 50, 4)` candidate loop of
`analyze_qr_structure`: skip candidates that do not divide the cropped
height evenly, otherwise keep the candidate with the strictly smallest
error rate. -/
def fitStep (qrPx : ℕ → ℕ → Bool) (qrSize regionW : ℕ)
    (best : Option (ℕ × ℕ × Frac)) (modules : ℕ) : Option (ℕ × ℕ × Frac) :=
  if qrSize % modules ≠ 0 then best
  else
    let ms := qrSize / modules
    let err := gridErr qrPx qrSize ms regionW modules
    let samples := gridSamples qrSize ms regionW modules
    if samples = 0 then best
    else
      let rate : Frac := ⟨err, samples⟩
      match best with
      | none => some (modules, ms, rate)
      | some (bm, bms, brate) =>
        if rate.ltb brate then some (modules, ms, rate) else some (bm, bms, brate)

/-- The candidate module counts `range(21, 50, 4)`. -/
def moduleCandidates : List ℕ := [21, 25, 29, 33, 37, 41, 45, 49]

/-- `ExactQRMatcher.analyze_qr_structure` (src/qr_exact_matcher.py,
lines 47-118). -/
def analyzeQRStructure (img : Raster) : Option QRFit :=
  match minList (darkYs img), maxList (darkYs img),
      minList (darkXs img), maxList (darkXs img) with
  | some minY, some maxY, some minX, some maxX =>
    let qrSize := maxY - minY + 1
    let regionW := maxX - minX + 1
    let qrPx : ℕ → ℕ → Bool := fun y x => img.px (minY + y) (minX + x)
    match moduleCandidates.foldl (fitStep qrPx qrSize regionW) none with
    | none => none
    | some (modules, ms, rate) =>
      some ⟨modules, ms, rate, (modules - 21) / 4 + 1,
        minX, minY, maxX, maxY, qrSize, minX, img.w, img.h⟩
  | _, _, _, _ => none

/-- The `best_match` record tracked by
`ExactQRMatcher.find_exact_parameters`. -/
structure MatchResult where
  version : ℕ
  ec : ECLevel
  boxSize : ℕ
  border : ℕ
  similarity : Frac
deriving DecidableEq, Repr

/-- One parameter combination of the sweep. -/
abbrev Combo := ℕ × ECLevel × ℕ × ℕ

/-- The `itertools.product(versions, error_corrections, module_sizes,
borders)` grid of `find_exact_parameters`, in iteration order. -/
def combosOf (fit : QRFit) : List Combo :=
  let versions := if 0 < fit.version then [fit.version] else [1, 2, 3]
  let ecs := [ECLevel.L, ECLevel.M, ECLevel.Q, ECLevel.H]
  let sizes := [fit.moduleSize - 1, fit.moduleSize, fit.moduleSize + 1]
  let bb := fit.quietZone / fit.moduleSize
  let borders := if bb = 0 then [0, 1] else [bb - 1, bb, bb + 1]
  versions.flatMap (fun v => ecs.flatMap (fun e =>
    sizes.flatMap (fun s => borders.map (fun b => (v, e, s, b)))))

/-- Evaluation of one combination: render (`none` when the caught exception
skips it), resize to the reference dimensions when they differ, compare. -/
def evalCombo (qrm : QRPrimitive) (p : String) (ref : Raster) (c : Combo) :
    Option MatchResult :=
  match renderOpt qrm p c.1 c.2.1 c.2.2.1 c.2.2.2 with
  | none => none
  | some img =>
    let img' := if img.w = ref.w ∧ img.h = ref.h then img
      else resizeNearest img ref.w ref.h
    some ⟨c.1, c.2.1, c.2.2.1, c.2.2.2, exactCompare ref img'⟩

/-- The `99.9` early-exit threshold. -/
def nearThreshold : Frac := ⟨999, 10⟩

/-- The sweep loop of `find_exact_parameters`: track the strictly best
result, break as soon as a combination reaches the threshold. -/
def searchLoop (qrm : QRPrimitive) (p : String) (ref : Raster) :
    List Combo → Frac → Option MatchResult → Option MatchResult
  | [], _, best => best
  | c :: rest, bestSim, best =>
    match evalCombo qrm p ref c with
    | none => searchLoop qrm p ref rest bestSim best
    | some r =>
      if bestSim.ltb r.similarity then
        if nearThreshold.leb r.similarity then some r
        else searchLoop qrm p ref rest r.similarity (some r)
      else searchLoop qrm p ref rest bestSim best

/-- `ExactQRMatcher.find_exact_parameters` (src/qr_exact_matcher.py,
lines 120-201). -/
def findExactParameters (qrm : QRPrimitive) (p : String) (ref : Raster) :
    Option MatchResult :=
  match analyzeQRStructure ref with
  | none => none
  | some fit => searchLoop qrm p ref (combosOf fit) zeroPercent none

/-- The grid the sweep iterates for a reference raster (empty when structure
analysis fails). -/
def gridOf (ref : Raster) : List Combo :=
  match analyzeQRStructure ref with
  | none => []
  | some fit => combosOf fit

/-- Similarity scores of the successfully evaluated combinations of a
grid, in iteration order. -/
def evalScores (qrm : QRPrimitive) (p : String) (ref : Raster)
    (grid : List Combo) : List Frac :=
  (grid.filterMap (evalCombo qrm p ref)).map (fun r => r.similarity)

/-- The first combination of a grid whose evaluation reaches the
threshold. -/
def firstHit (qrm : QRPrimitive) (p : String) (ref : Raster)
    (grid : List Combo) : Option MatchResult :=
  grid.findSome? (fun c =>
    match evalCombo qrm p ref c with
    | none => none
    | some r => if nearThreshold.leb r.similarity then some r else none)

/-- Maximal runs of consecutive dark pixels of a row, left to right
(the run-length scan of `qr_deep_analyzer.analyze_qr_structure`). -/
def blackRunsAux : List Bool → ℕ → List ℕ
  | [], cur => if 0 < cur then [cur] else []
  | b :: t, cur =>
    if b then blackRunsAux t (cur + 1)
    else if 0 < cur then cur :: blackRunsAux t 0
    else blackRunsAux t 0

/-- Dark runs of a row. -/
def blackRuns (row : List Bool) : List ℕ := blackRunsAux row 0

/-- First row of the dark-pixel bounding box of a raster. -/
def bboxFirstRow (img : Raster) (minY minX maxX : ℕ) : List Bool :=
  (List.range (maxX - minX + 1)).map (fun x => img.px minY (minX + x))

/-- The structure record of `qr_deep_analyzer.analyze_qr_structure`. -/
structure DeepFit where
  minX : ℕ
  minY : ℕ
  maxX : ℕ
  maxY : ℕ
  qrWidth : ℕ
  qrHeight : ℕ
  moduleSize : ℕ
  modulesX : ℕ
  modulesY : ℕ
  version : ℕ
  quietZoneModules : ℕ
deriving DecidableEq, Repr

/-- `analyze_qr_structure` of src/qr_deep_analyzer.py (lines 69-104): seed
the pixel-per-module size from the first dark run of the bounding box's
first row divided by 7, clamped below to 1, and the module count from the
bounding-box width divided by that size. -/
def deepAnalyze (img : Raster) : Option DeepFit :=
  match minList (darkYs img), maxList (darkYs img),
      minList (darkXs img), maxList (darkXs img) with
  | some minY, some maxY, some minX, some maxX =>
    let qrWidth := maxX - minX + 1
    let qrHeight := maxY - minY + 1
    let runs := blackRuns (bboxFirstRow img minY minX maxX)
    let moduleSize := match runs.head? with
      | some r => if r / 7 = 0 then 1 else r / 7
      | none => 1
    let modulesX := qrWidth / moduleSize
    let modulesY := qrHeight / moduleSize
    some ⟨minX, minY, maxX, maxY, qrWidth, qrHeight, moduleSize,
      modulesX, modulesY, (modulesX - 17) / 4, minX / moduleSize⟩
  | _, _, _, _ => none

/-- The error-correction sweep of `test_all_error_corrections`
(src/qr_perfect_match.py, lines 96-128): renders the payload at version 1
for each level in turn with the module size and border chosen for the
reference variant, resizes on dimension mismatch, and collects the
similarity of `compare_images`.  The loop body has no exception handler,
so a rendering failure (`none`) aborts the whole sweep. -/
def pmLoop (qrm : QRPrimitive) (p : String) (ref : Raster) (box border : ℕ) :
    List ECLevel → List (ECLevel × Frac) → Option (List (ECLevel × Frac))
  | [], acc => some acc
  | ec :: rest, acc =>
    match renderOpt qrm p 1 ec box border with
    | none => none
    | some img =>
      let img' := if img.w = ref.w ∧ img.h = ref.h then img
        else resizeNearest img ref.w ref.h
      pmLoop qrm p ref box border rest (acc ++ [(ec, (pmCompare ref img').1)])

/-- `test_all_error_corrections` restricted to its sweep over the four
error-correction levels (`box`/`border` are the 41/4 or 20/4 the source
derives from the reference variant). -/
def testAllErrorCorrections (qrm : QRPrimitive) (p : String) (ref : Raster)
    (box border : ℕ) : Option (List (ECLevel × Frac)) :=
  pmLoop qrm p ref box border [ECLevel.L, ECLevel.M, ECLevel.Q, ECLevel.H] []

/-- The first dark run consulted by the seeding step (0 when there is none);
used to state the seeding claim. -/
def deepFirstRun (img : Raster) : ℕ :=
  match minList (darkYs img), minList (darkXs img), maxList (darkXs img) with
  | some minY, some minX, some maxX =>
    (blackRuns (bboxFirstRow img minY minX maxX)).headD 0
  | _, _, _ => 0

/-! ### Concrete fixtures used by counterexamples and witnesses -/

/-- The encoding primitive whose every module matrix is all dark (not a
valid QR symbol, but the parameter sweep is agnostic to matrix contents and
only finder-pattern edges matter to the analysis; used to exhibit search
behaviour concretely). -/
def qrmDark : QRPrimitive := fun _ _ _ => fun _ _ => true

/-- The encoding primitive whose every module matrix is all light. -/
def qrmWhite : QRPrimitive := fun _ _ _ => fun _ _ => false

/-- The payload of the spec's concrete midnight scenario. -/
def samplePayload : String := "926806012025000001"

/-- The 42x42 raster rendered from the all-dark version-1 matrix at module
size 2 with no quiet zone. -/
def refDark42 : Raster := renderRaster (fun _ _ => true) 21 2 0

/-- An all-dark 21x21 reference raster. -/
def refDark21 : Raster := mkRaster 21 21 (fun _ _ => true)

/-- An all-dark 2x2 raster. -/
def aDark2 : Raster := mkRaster 2 2 (fun _ _ => true)

/-- An all-dark 4x4 raster. -/
def bDark4 : Raster := mkRaster 4 4 (fun _ _ => true)

/-- A 4x4 raster whose bounding-box first row starts with a 3-pixel dark
run (dark pixels at (0,0), (0,1), (0,2) and (3,3)). -/
def rasterRun3 : Raster :=
  ⟨4, 4, [[true, true, true, false],
          [false, false, false, false],
          [false, false, false, false],
          [false, false, false, true]]⟩

/-- A 48x1 raster whose first row opens with a 41-pixel dark run (and a
final dark pixel stretching the bounding box to width 48). -/
def rasterRun41 : Raster := mkRaster 48 1 (fun _ x => x < 41 || x = 47)

/-- A directory holding one parseable capture whose body encodes a payload
different from the predicted one (a non-conforming sample). -/
def dirNonConforming : List SampleFile := [⟨"202506010930.svg", "BAD"⟩]

/-- A directory holding one conforming capture. -/
def dirConforming : List SampleFile :=
  [⟨"202506010930.svg", "926806012025080000"⟩]

/-- The analysis results of `dirConforming` (the `getD` default is never
used: the analysis succeeds). -/
def resConforming : AnalyzeResults :=
  (analyzeDirectory dirConforming).getD ⟨0, true, none, none, [], []⟩

/-- One full aggregator run: analyze a directory at a given clock reading
and persist the summary. -/
def runPipeline (files : List SampleFile) (nowIso : String) :
    Option SavedAnalysis :=
  (analyzeDirectory files).map (fun r => saveAnalysis r nowIso)

/-- The structure record `deepAnalyze` computes for `rasterRun41`. -/
def fitRun41 : DeepFit := ⟨0, 0, 47, 0, 48, 1, 5, 9, 0, 0, 0⟩

/-! ### Helper lemmas -/

set_option maxRecDepth 40000

/-- Digit characters are digits. -/
theorem digitChar_isDigit (d : ℕ) (hd : d < 10) : (digitChar d).isDigit = true := by
  interval_cases d <;> decide

/-- Width-2 padding of a number below 100 yields two digit characters. -/
theorem pad2_ok (n : ℕ) (hn : n < 100) :
    (pad2 n).length = 2 ∧ (pad2 n).data.all Char.isDigit = true := by
  rw [pad2, if_pos hn]
  refine ⟨rfl, ?_⟩
  simp [List.all_cons, digitChar_isDigit _ (Nat.mod_lt _ (by omega))]

/-- Width-4 padding of a number below 10000 yields four digit characters. -/
theorem pad4_ok (n : ℕ) (hn : n < 10000) :
    (pad4 n).length = 4 ∧ (pad4 n).data.all Char.isDigit = true := by
  rw [pad4, if_pos hn]
  refine ⟨rfl, ?_⟩
  simp [List.all_cons, digitChar_isDigit _ (Nat.mod_lt _ (by omega))]

/-! ### Claim C1 -/

/-- Claim C1: for every (naive, Eastern wall-clock) timestamp, the payload
encoder is total and returns the 18-character numeric string
`"9268" + MMDDYYYY + slot_hour + "00" + SS` with
`slot_hour = (hour // 2) * 2` and `SS = "01"` iff the slot is the midnight
one; the analyzer's predictor computes the same string; in particular the
2025-06-01 00:00 timestamp yields `"926806012025000001"`.  Totality and
determinism hold by construction: `generateQRData` is a pure function. -/
theorem c1_payload_encoder (w : WallClock) (h : w.Valid) :
    generateQRData ⟨w, none⟩ =
      "9268" ++ pad2 w.month ++ pad2 w.day ++ pad4 w.year
        ++ pad2 (w.hour / 2 * 2) ++ "00"
        ++ (if w.hour / 2 * 2 = 0 then "01" else "00")
    ∧ (generateQRData ⟨w, none⟩).length = 18
    ∧ (generateQRData ⟨w, none⟩).data.all Char.isDigit = true
    ∧ predictQRData w = generateQRData ⟨w, none⟩
    ∧ generateQRData ⟨⟨2025, 6, 1, 0, 0⟩, none⟩ = "926806012025000001" := by
  obtain ⟨hy1, hy2, hm1, hm2, hd1, hd2, hh, hmin⟩ := h
  have heq : generateQRData ⟨w, none⟩ =
      "9268" ++ pad2 w.month ++ pad2 w.day ++ pad4 w.year
        ++ pad2 (w.hour / 2 * 2) ++ "00"
        ++ (if w.hour / 2 * 2 = 0 then "01" else "00") := by
    simp [generateQRData, normalizeEastern, payloadOfWall, dateStrMMDDYYYY,
      timeStrOfWall, slotSeconds, slotHour, String.append_assoc]
  have hmo := pad2_ok w.month (by omega)
  have hda := pad2_ok w.day (by omega)
  have hsl := pad2_ok (w.hour / 2 * 2) (by omega)
  have hyr := pad4_ok w.year (by omega)
  refine ⟨heq, ?_, ?_, ?_, by decide⟩
  · rw [heq]
    have hif : (if w.hour / 2 * 2 = 0 then "01" else "00").length = 2 := by
      split <;> decide
    have h9268 : ("9268" : String).length = 4 := rfl
    have h00 : ("00" : String).length = 2 := rfl
    simp only [String.length_append, hmo.1, hda.1, hsl.1, hyr.1, hif, h9268, h00]
  · rw [heq]
    simp only [String.data_append, List.all_append, Bool.and_eq_true]
    and_intros
    · decide
    · exact hmo.2
    · exact hda.2
    · exact hyr.2
    · exact hsl.2
    · decide
    · split <;> decide
  · rfl

/-- Witness for C1 at the spec's second concrete scenario
(2025-06-01 07:48, slot 06, suffix 00). -/
theorem c1_payload_encoder_witness :
    (⟨2025, 6, 1, 7, 48⟩ : WallClock).Valid
    ∧ (generateQRData ⟨⟨2025, 6, 1, 7, 48⟩, none⟩).length = 18
    ∧ generateQRData ⟨⟨2025, 6, 1, 7, 48⟩, none⟩ = "926806012025060000" :=
  ⟨by decide, (c1_payload_encoder ⟨2025, 6, 1, 7, 48⟩ (by decide)).2.1, by decide⟩

/-! ### Claim C10 -/

/-- Claim C10: the encoder normalizes to Eastern time before deriving the
payload — an aware datetime's payload depends only on the instant it
denotes (so two aware datetimes denoting the same instant yield identical
payloads, whatever timezone they are expressed in), and a naive datetime is
taken as Eastern wall-clock time as-is. -/
theorem c10_timezone_normalization (w1 w2 : WallClock) (o1 o2 : ℤ)
    (h : instantOfAware w1 o1 = instantOfAware w2 o2) :
    generateQRData ⟨w1, some o1⟩ = generateQRData ⟨w2, some o2⟩
    ∧ (∀ w : WallClock, generateQRData ⟨w, none⟩ = payloadOfWall w) := by
  constructor
  · simp only [generateQRData, normalizeEastern]
    rw [h]
  · intro w
    rfl

/-- Witness for C10: 2025-06-01 04:00 UTC and 2025-06-01 00:00 EDT denote
the same instant and both encode to the midnight-slot payload (checking the
daylight-saving conversion concretely). -/
theorem c10_timezone_normalization_witness :
    instantOfAware ⟨2025, 6, 1, 4, 0⟩ 0 = instantOfAware ⟨2025, 6, 1, 0, 0⟩ (-240)
    ∧ generateQRData ⟨⟨2025, 6, 1, 4, 0⟩, some 0⟩
        = generateQRData ⟨⟨2025, 6, 1, 0, 0⟩, some (-240)⟩
    ∧ generateQRData ⟨⟨2025, 6, 1, 4, 0⟩, some 0⟩ = "926806012025000001" :=
  ⟨by decide,
    (c10_timezone_normalization ⟨2025, 6, 1, 4, 0⟩ ⟨2025, 6, 1, 0, 0⟩ 0 (-240)
      (by decide)).1,
    by decide⟩

/-! ### Claim C4 -/

/-- Stepping the grid count by one row. -/
theorem countGrid_succ (W H : ℕ) (p : ℕ → ℕ → Bool) :
    countGrid W (H + 1) p = countGrid W H p + (List.range W).countP (fun x => p H x) := by
  simp [countGrid, List.range_succ]

/-- A predicate true on the whole grid is counted `W * H` times. -/
theorem countGrid_eq_total (W H : ℕ) (p : ℕ → ℕ → Bool)
    (h : ∀ y, y < H → ∀ x, x < W → p y x = true) : countGrid W H p = W * H := by
  induction H with
  | zero => simp [countGrid]
  | succ H ih =>
    rw [countGrid_succ, ih (fun y hy x hx => h y (Nat.lt_succ_of_lt hy) x hx)]
    have hrow : (List.range W).countP (fun x => p H x) = W := by
      have := List.countP_eq_length (p := fun x => p H x) (l := List.range W)
      rw [this.mpr (fun x hx => h H (Nat.lt_succ_self H) x (List.mem_range.mp hx))]
      exact List.length_range W
    rw [hrow]
    ring

/-- A full-agreement ratio evaluates to the percentage 100. -/
theorem Frac.toRat_total (T : ℕ) (h : T ≠ 0) :
    (⟨T * 100, T⟩ : Frac).toRat = 100 := by
  have hT : (T : ℚ) ≠ 0 := Nat.cast_ne_zero.mpr h
  simp only [Frac.toRat]
  push_cast
  field_simp

/-- Claim C4 (amended): on a dimension mismatch, `ExactQRMatcher`'s
comparator resamples `b` to `a`'s dimensions with nearest-neighbor and
scores agreement (yielding 100 whenever the resampled raster agrees with
`a` pixelwise), but `compare_qr_images` of qr_parameter_finder.py returns
similarity 0 outright and `compare_images` of qr_perfect_match.py returns
`(0.0, None)` — in those two comparators a dimension mismatch alone does
yield a zero score. -/
theorem c4_compare_dimension_mismatch (a b : Raster)
    (hdim : ¬(a.w = b.w ∧ a.h = b.h)) :
    exactCompare a b = agreementPercent a (resizeNearest b a.w a.h)
    ∧ pfCompare a b = zeroPercent
    ∧ pmCompare a b = (zeroPercent, none)
    ∧ (a.w * a.h ≠ 0 →
        (∀ y, y < a.h → ∀ x, x < a.w → (resizeNearest b a.w a.h).px y x = a.px y x) →
        (exactCompare a b).toRat = 100) := by
  refine ⟨?_, ?_, ?_, ?_⟩
  · simp only [exactCompare, if_neg hdim]
  · simp only [pfCompare, if_neg hdim]
  · simp only [pmCompare, if_neg hdim]
  · intro hpos hagree
    have hcount : countGrid a.w a.h
        (fun y x => a.px y x == (resizeNearest b a.w a.h).px y x) = a.w * a.h := by
      apply countGrid_eq_total
      intro y hy x hx
      rw [hagree y hy x hx]
      exact beq_self_eq_true _
    simp only [exactCompare, if_neg hdim, agreementPercent, hcount]
    exact Frac.toRat_total _ hpos

/-- Witness for the C4 theorem at concrete rasters: the all-dark 2x2 and
4x4 rasters mismatch in dimensions; resampling makes them agree, the exact
matcher's comparator scores 100, the other two score 0. -/
theorem c4_compare_dimension_mismatch_witness :
    ¬(aDark2.w = bDark4.w ∧ aDark2.h = bDark4.h)
    ∧ pfCompare aDark2 bDark4 = zeroPercent
    ∧ (exactCompare aDark2 bDark4).toRat = 100 :=
  ⟨by decide,
    (c4_compare_dimension_mismatch aDark2 bDark4 (by decide)).2.1,
    (c4_compare_dimension_mismatch aDark2 bDark4 (by decide)).2.2.2
      (by decide) (by decide)⟩

/-- Counterexample to claim C4 as stated: `compare_qr_images`
(qr_parameter_finder.py) and `compare_images` (qr_perfect_match.py) score
the all-dark 2x2 raster against the all-dark 4x4 raster as 0 on the
dimension mismatch alone — no resampling happens there, although the
nearest-neighbor-resampled rasters agree exactly (the exact matcher's
comparator scores the same pair as 100). -/
theorem c4_compare_counterexample :
    aDark2.w ≠ bDark4.w
    ∧ pfCompare aDark2 bDark4 = zeroPercent
    ∧ pmCompare aDark2 bDark4 = (zeroPercent, none)
    ∧ zeroPercent.toRat = 0
    ∧ exactCompare aDark2 bDark4 = ⟨400, 4⟩
    ∧ (⟨400, 4⟩ : Frac).toRat = 100 := by
  refine ⟨by decide, by decide, by decide, ?_, by decide, ?_⟩
  · simp [Frac.toRat, zeroPercent]
  · have := Frac.toRat_total 4 (by decide)
    simpa using this

/-! ### Claim C9 -/

/-- Claim C9 (amended): when the bounding-box first row has a non-empty
initial dark run `r`, the seeding step estimates the pixel-per-module size
as `r / 7` clamped below to 1 (the clamp fires exactly when `r < 7`), and
the module count as the bounding-box width floor-divided by that
estimate. -/
theorem c9_seeding_clamped (img : Raster) (fit : DeepFit)
    (h : deepAnalyze img = some fit) (hr : 0 < deepFirstRun img) :
    fit.moduleSize = max 1 (deepFirstRun img / 7)
    ∧ fit.modulesX = fit.qrWidth / fit.moduleSize := by
  rw [deepAnalyze] at h
  split at h
  case _ minY maxY minX maxX hmy hMy hmx hMx =>
    have hrun : deepFirstRun img =
        (blackRuns (bboxFirstRow img minY minX maxX)).headD 0 := by
      rw [deepFirstRun, hmy, hmx, hMx]
    rw [hrun] at hr ⊢
    cases hhead : (blackRuns (bboxFirstRow img minY minX maxX)).head? with
    | none =>
      rw [List.headD_eq_head?_getD, hhead] at hr
      simp at hr
    | some r =>
      rw [List.headD_eq_head?_getD, hhead]
      simp only [hhead, Option.getD_some] at h ⊢
      cases h
      constructor
      · by_cases h7 : r / 7 = 0
        · simp [h7]
        · simp only [if_neg h7]
          omega
      · rfl
  case _ =>
    cases h

/-- Witness for C9: a 48x1 raster whose first row opens with a 41-pixel
dark run seeds a module-size estimate of `41 / 7 = 5` (the spec's seeding
scenario) and a module count of `48 / 5 = 9`. -/
theorem c9_seeding_clamped_witness :
    deepFirstRun rasterRun41 = 41
    ∧ fitRun41.moduleSize = max 1 (deepFirstRun rasterRun41 / 7)
    ∧ fitRun41.moduleSize = 5
    ∧ fitRun41.modulesX = 9 :=
  ⟨by decide,
    (c9_seeding_clamped rasterRun41 fitRun41 (by decide) (by decide)).1,
    by decide, by decide⟩

/-- Counterexample to claim C9 as stated: a raster whose bounding-box first
row has the initial dark run 3 gets the module-size estimate 1, not
`3 / 7 = 0` — the floor division is clamped below to 1 by the code. -/
theorem c9_seeding_counterexample :
    deepFirstRun rasterRun3 = 3
    ∧ (deepAnalyze rasterRun3).map (fun f => f.moduleSize) = some 1
    ∧ 3 / 7 = 0
    ∧ (deepAnalyze rasterRun3).map (fun f => f.moduleSize) ≠ some (3 / 7) := by
  refine ⟨by decide, by decide, by decide, by decide⟩

/-! ### Claim C8 -/

/-- Claim C8 (amended): the filename parser accepts exactly the 12-digit
stems `YYYYMMDDHHMM` denoting valid timestamps and recovers the embedded
fields; the 14-digit seconds form `YYYYMMDDHHMMSS` (and every other stem)
is rejected, not parsed. -/
theorem c8_filename_parser_characterization (name : String) :
    ((∃ dt, analyzeFilename name = .parsed dt) ↔
      ((stemOf name).length = 12 ∧ (stemOf name).data.all Char.isDigit = true
        ∧ validDate (digitsToNat ((stemOf name).data.take 4))
            (digitsToNat (((stemOf name).data.drop 4).take 2))
            (digitsToNat (((stemOf name).data.drop 6).take 2))
            (digitsToNat (((stemOf name).data.drop 8).take 2))
            (digitsToNat (((stemOf name).data.drop 10).take 2)) = true))
    ∧ (∀ dt, analyzeFilename name = .parsed dt →
        dt = ⟨digitsToNat ((stemOf name).data.take 4),
              digitsToNat (((stemOf name).data.drop 4).take 2),
              digitsToNat (((stemOf name).data.drop 6).take 2),
              digitsToNat (((stemOf name).data.drop 8).take 2),
              digitsToNat (((stemOf name).data.drop 10).take 2)⟩) := by
  constructor
  · constructor
    · rintro ⟨dt, hdt⟩
      simp only [analyzeFilename] at hdt
      by_cases h1 : (stemOf name).length = 12 ∧ (stemOf name).data.all Char.isDigit = true
      · rw [if_pos h1] at hdt
        by_cases h2 : validDate (digitsToNat ((stemOf name).data.take 4))
            (digitsToNat (((stemOf name).data.drop 4).take 2))
            (digitsToNat (((stemOf name).data.drop 6).take 2))
            (digitsToNat (((stemOf name).data.drop 8).take 2))
            (digitsToNat (((stemOf name).data.drop 10).take 2)) = true
        · exact ⟨h1.1, h1.2, h2⟩
        · rw [if_neg h2] at hdt
          cases hdt
      · rw [if_neg h1] at hdt
        cases hdt
    · rintro ⟨hlen, hdig, hvd⟩
      refine ⟨⟨digitsToNat ((stemOf name).data.take 4),
          digitsToNat (((stemOf name).data.drop 4).take 2),
          digitsToNat (((stemOf name).data.drop 6).take 2),
          digitsToNat (((stemOf name).data.drop 8).take 2),
          digitsToNat (((stemOf name).data.drop 10).take 2)⟩, ?_⟩
      simp only [analyzeFilename]
      rw [if_pos ⟨hlen, hdig⟩, if_pos hvd]
  · intro dt hdt
    simp only [analyzeFilename] at hdt
    by_cases h1 : (stemOf name).length = 12 ∧ (stemOf name).data.all Char.isDigit = true
    · rw [if_pos h1] at hdt
      by_cases h2 : validDate (digitsToNat ((stemOf name).data.take 4))
          (digitsToNat (((stemOf name).data.drop 4).take 2))
          (digitsToNat (((stemOf name).data.drop 6).take 2))
          (digitsToNat (((stemOf name).data.drop 8).take 2))
          (digitsToNat (((stemOf name).data.drop 10).take 2)) = true
      · rw [if_pos h2] at hdt
        cases hdt
        rfl
      · rw [if_neg h2] at hdt
        cases hdt
    · rw [if_neg h1] at hdt
      cases hdt

/-- Witness for C8 at a concrete 12-digit capture name. -/
theorem c8_filename_parser_characterization_witness :
    (∃ dt, analyzeFilename "202506011144.svg" = .parsed dt)
    ∧ analyzeFilename "202506011144.svg" = .parsed ⟨2025, 6, 1, 11, 44⟩ :=
  ⟨(c8_filename_parser_characterization "202506011144.svg").1.mpr (by decide),
    by decide⟩

/-- Counterexample to claim C8 as stated: the 14-digit seconds form
`20250601093045.svg` is a well-formed `YYYYMMDDHHMMSS` capture name, yet
the parser returns the not-a-timestamp outcome and the aggregator records
no sample for it (the file is counted but excluded). -/
theorem c8_filename_counterexample :
    stemOf "20250601093045.svg" = "20250601093045"
    ∧ (stemOf "20250601093045.svg").length = 14
    ∧ (stemOf "20250601093045.svg").data.all Char.isDigit = true
    ∧ analyzeFilename "20250601093045.svg" = .notTimestamp
    ∧ (analyzeDirectory [⟨"20250601093045.svg", "926806012025080000"⟩]).map
        (fun r => (r.files_analyzed, r.predictions)) = some (1, []) := by
  refine ⟨by decide, by decide, by decide, by decide, by decide⟩

/-! ### Claim C7 -/

/-- Claim C7 (amended): the persisted summary is a deterministic function
of the analysis results and the wall clock; two runs over an unchanged
directory produce artifacts that agree on every field except
`analysis_date`, which records each run's `datetime.now()` reading — so
byte-identity fails exactly when the clock readings differ. -/
theorem c7_save_clock_dependence (res : AnalyzeResults) (t1 t2 : String) :
    (saveAnalysis res t1).analysis_date = t1
    ∧ { saveAnalysis res t1 with analysis_date := t2 } = saveAnalysis res t2
    ∧ (∀ files, runPipeline files t1 =
        (analyzeDirectory files).map (fun r => saveAnalysis r t1)) :=
  ⟨rfl, rfl, fun _ => rfl⟩

/-- Counterexample to claim C7 as stated: two aggregator runs over the same
unchanged one-file directory at different clock readings persist different
summary artifacts (their `analysis_date` fields differ). -/
theorem c7_idempotence_counterexample :
    runPipeline dirConforming "2025-06-02T10:00:00"
      ≠ runPipeline dirConforming "2025-06-02T12:00:00" := by
  decide

/-! ### Claim C6 -/

/-- The per-file update never touches the verdict field. -/
theorem updateResults_confirmed (res : AnalyzeResults) (name : String)
    (dt : WallClock) :
    (updateResults res name dt).pattern_confirmed = res.pattern_confirmed := rfl

/-- The aggregation loop never touches the verdict field. -/
theorem analyzeLoop_confirmed (l : List SampleFile) :
    ∀ acc res, analyzeLoop acc l = some res →
      res.pattern_confirmed = acc.pattern_confirmed := by
  induction l with
  | nil =>
    intro acc res h
    cases h
    rfl
  | cons f t ih =>
    intro acc res h
    rw [analyzeLoop] at h
    cases haf : analyzeFilename f.name with
    | parsed dt =>
      rw [haf] at h
      exact (ih _ _ h).trans (updateResults_confirmed acc f.name dt)
    | notTimestamp =>
      rw [haf] at h
      exact ih _ _ h
    | invalidDate =>
      rw [haf] at h
      cases h

/-- Recorded predictions survive the rest of the aggregation loop. -/
theorem analyzeLoop_pred_mono (l : List SampleFile) :
    ∀ acc res e, analyzeLoop acc l = some res →
      e ∈ acc.predictions → e ∈ res.predictions := by
  induction l with
  | nil =>
    intro acc res e h he
    cases h
    exact he
  | cons f t ih =>
    intro acc res e h he
    rw [analyzeLoop] at h
    cases haf : analyzeFilename f.name with
    | parsed dt =>
      rw [haf] at h
      exact ih _ _ e h (List.mem_append_left _ he)
    | notTimestamp =>
      rw [haf] at h
      exact ih _ _ e h he
    | invalidDate =>
      rw [haf] at h
      cases h

/-- Every file of the processed list with a parseable name gets a
prediction entry recorded under its filename. -/
theorem analyzeLoop_records (l : List SampleFile) :
    ∀ acc res, analyzeLoop acc l = some res →
      ∀ f ∈ l, ∀ dt, analyzeFilename f.name = .parsed dt →
        ∃ e ∈ res.predictions, e.filename = f.name := by
  induction l with
  | nil =>
    intro acc res h f hf
    cases hf
  | cons g t ih =>
    intro acc res h f hf dt hdt
    rw [analyzeLoop] at h
    rcases List.mem_cons.mp hf with rfl | hft
    · rw [hdt] at h
      refine ⟨⟨f.name, isoFormat dt, predictQRData dt⟩, ?_, rfl⟩
      apply analyzeLoop_pred_mono t _ _ _ h
      simp [updateResults]
    · cases haf : analyzeFilename g.name with
      | parsed dt' =>
        rw [haf] at h
        exact ih _ _ h f hft dt hdt
      | notTimestamp =>
        rw [haf] at h
        exact ih _ _ h f hft dt hdt
      | invalidDate =>
        rw [haf] at h
        cases h

/-- Membership through stable insertion. -/
theorem mem_insertSorted (le : SampleFile → SampleFile → Bool)
    (a x : SampleFile) (l : List SampleFile) :
    x ∈ insertSorted le a l ↔ x = a ∨ x ∈ l := by
  induction l with
  | nil => simp [insertSorted]
  | cons b t ih =>
    rw [insertSorted]
    split
    · simp
    · simp only [List.mem_cons, ih]
      tauto

/-- Membership through the stable sort. -/
theorem mem_insertionSort (le : SampleFile → SampleFile → Bool)
    (x : SampleFile) (l : List SampleFile) :
    x ∈ insertionSort le l ↔ x ∈ l := by
  induction l with
  | nil => simp [insertionSort]
  | cons a t ih =>
    rw [insertionSort, mem_insertSorted]
    simp [ih]

/-- Claim C6 (amended): whenever the aggregator completes, its verdict
field `pattern_confirmed` is `true` — unconditionally, whether or not any
sample conforms to the encoding rule (the code initializes it to `True`
and never updates it, and it never reads a sample's actual payload) — and
every `.svg` file with a parseable name is recorded in `predictions`. -/
theorem c6_verdict_always_confirmed (files : List SampleFile)
    (res : AnalyzeResults) (h : analyzeDirectory files = some res) :
    res.pattern_confirmed = true
    ∧ ∀ f ∈ files, strEndsWith f.name ".svg" = true →
        ∀ dt, analyzeFilename f.name = .parsed dt →
          ∃ e ∈ res.predictions, e.filename = f.name := by
  rw [analyzeDirectory] at h
  refine ⟨analyzeLoop_confirmed _ _ _ h, ?_⟩
  intro f hf hsvg dt hdt
  refine analyzeLoop_records _ _ _ h f ?_ dt hdt
  rw [sortedSvgFiles, mem_insertionSort]
  exact List.mem_filter.mpr ⟨hf, hsvg⟩

/-- Witness for C6 at a concrete conforming directory. -/
theorem c6_verdict_always_confirmed_witness :
    analyzeDirectory dirConforming = some resConforming
    ∧ resConforming.pattern_confirmed = true :=
  have h : analyzeDirectory dirConforming = some resConforming := by decide
  ⟨h, (c6_verdict_always_confirmed dirConforming resConforming h).1⟩

/-- Counterexample to claim C6 as stated: a directory whose single sample
does not conform to the encoding rule (its body payload differs from the
payload predicted for its filename timestamp) still gets the verdict
`pattern_confirmed = True` — the aggregator never demotes the verdict and
never reads the actual payload. -/
theorem c6_verdict_counterexample :
    analyzeFilename "202506010930.svg" = .parsed ⟨2025, 6, 1, 9, 30⟩
    ∧ predictQRData ⟨2025, 6, 1, 9, 30⟩ = "926806012025080000"
    ∧ (dirNonConforming.map (fun f => f.actualData)) = ["BAD"]
    ∧ "BAD" ≠ "926806012025080000"
    ∧ (analyzeDirectory dirNonConforming).map (fun r => r.pattern_confirmed)
        = some true := by
  refine ⟨by decide, by decide, by decide, by decide, by decide⟩

/-! ### Claim C5 -/

/-- Claim C5 (amended): a payload exceeding the capacity of the requested
version/error-correction combination makes the renderer fail with the
capacity error; `ExactQRMatcher.find_exact_parameters` treats the failed
combination as skipped — its sweep over a grid headed by that combination
equals the sweep over the rest of the grid, so the error is never fatal
there; but `test_all_error_corrections` (qr_perfect_match.py) has no
handler, so the same failure aborts its whole error-correction sweep. -/
theorem c5_capacity_error_handling (qrm : QRPrimitive) (p : String)
    (ref : Raster) (v : ℕ) (ec : ECLevel) (box border : ℕ)
    (hcap : numericCapacity v ec < p.length) :
    renderOpt qrm p v ec box border = none
    ∧ evalCombo qrm p ref (v, ec, box, border) = none
    ∧ (∀ grid bestSim best,
        searchLoop qrm p ref ((v, ec, box, border) :: grid) bestSim best
          = searchLoop qrm p ref grid bestSim best)
    ∧ (v = 1 → ∀ rest acc, pmLoop qrm p ref box border (ec :: rest) acc = none) := by
  have h1 : renderOpt qrm p v ec box border = none := by
    simp [renderOpt, hcap]
  have h2 : evalCombo qrm p ref (v, ec, box, border) = none := by
    rw [evalCombo]
    split
    · rfl
    case _ img heq =>
      rw [h1] at heq
      cases heq
  refine ⟨h1, h2, ?_, ?_⟩
  · intro grid bestSim best
    rw [searchLoop]
    split
    · rfl
    case _ r heq =>
      rw [h2] at heq
      cases heq
  · rintro rfl rest acc
    rw [pmLoop]
    split
    · rfl
    case _ img heq =>
      rw [h1] at heq
      cases heq

/-- Witness for C5: the 18-digit payload exceeds the version-1 capacity 17
at level H; the renderer fails and the exact matcher's sweep over a
one-combination grid is the empty sweep. -/
theorem c5_capacity_error_handling_witness :
    numericCapacity 1 ECLevel.H < samplePayload.length
    ∧ renderOpt qrmDark samplePayload 1 ECLevel.H 20 4 = none
    ∧ searchLoop qrmDark samplePayload refDark42
        [(1, ECLevel.H, 20, 4)] zeroPercent none = none :=
  ⟨by decide,
    (c5_capacity_error_handling qrmDark samplePayload refDark42 1 ECLevel.H
      20 4 (by decide)).1,
    ((c5_capacity_error_handling qrmDark samplePayload refDark42 1 ECLevel.H
      20 4 (by decide)).2.2.1 [] zeroPercent none).trans rfl⟩

/-- Counterexample to claim C5 as stated: with the 18-digit payload the
levels L, M, Q render fine at version 1 but H exceeds its capacity of 17,
and the `test_all_error_corrections` sweep — one of the claim's parameter
sweeps — returns nothing at all: the capacity error is fatal to that whole
sweep instead of skipping only the H combination. -/
theorem c5_capacity_counterexample :
    numericCapacity 1 ECLevel.H < samplePayload.length
    ∧ renderOpt qrmDark samplePayload 1 ECLevel.L 1 0 ≠ none
    ∧ renderOpt qrmDark samplePayload 1 ECLevel.H 1 0 = none
    ∧ testAllErrorCorrections qrmDark samplePayload refDark21 1 0 = none := by
  refine ⟨by decide, by decide, by decide, by decide⟩

/-! ### Ratio order lemmas -/

/-- Ratio comparison is reflexive. -/
theorem Frac.leb_refl (a : Frac) : a.leb a = true := by
  simp [Frac.leb]

/-- Strict comparison implies comparison. -/
theorem Frac.leb_of_ltb {a b : Frac} (h : a.ltb b = true) : a.leb b = true := by
  simp only [Frac.ltb, decide_eq_true_eq] at h
  simp only [Frac.leb, decide_eq_true_eq]
  omega

/-- Failed strict comparison flips. -/
theorem Frac.leb_of_ltb_false {a b : Frac} (h : a.ltb b = false) :
    b.leb a = true := by
  simp only [Frac.ltb, decide_eq_false_iff_not] at h
  simp only [Frac.leb, decide_eq_true_eq]
  omega

/-- Failed comparison flips strictly. -/
theorem Frac.ltb_of_leb_false {a b : Frac} (h : a.leb b = false) :
    b.ltb a = true := by
  simp only [Frac.leb, decide_eq_false_iff_not] at h
  simp only [Frac.ltb, decide_eq_true_eq]
  omega

/-- Transitivity of strict-then-weak ratio comparison (the right
denominator positive). -/
theorem Frac.ltb_leb_trans {a b c : Frac} (hc : 0 < c.den)
    (h1 : a.ltb b = true) (h2 : b.leb c = true) : a.ltb c = true := by
  simp only [Frac.ltb, decide_eq_true_eq] at h1 ⊢
  simp only [Frac.leb, decide_eq_true_eq] at h2
  have step : a.num * c.den * b.den < c.num * a.den * b.den := by
    calc a.num * c.den * b.den = a.num * b.den * c.den := by ring
      _ < b.num * a.den * c.den := by
          exact Nat.mul_lt_mul_of_lt_of_le h1 (le_refl c.den) hc
      _ = b.num * c.den * a.den := by ring
      _ ≤ c.num * b.den * a.den := Nat.mul_le_mul_right _ h2
      _ = c.num * a.den * b.den := by ring
  exact Nat.lt_of_mul_lt_mul_right step

/-- Transitivity of weak-then-strict ratio comparison (the left
denominator positive). -/
theorem Frac.leb_ltb_trans {a b c : Frac} (ha : 0 < a.den)
    (h1 : a.leb b = true) (h2 : b.ltb c = true) : a.ltb c = true := by
  simp only [Frac.leb, decide_eq_true_eq] at h1
  simp only [Frac.ltb, decide_eq_true_eq] at h2 ⊢
  have step : a.num * c.den * b.den < c.num * a.den * b.den := by
    calc a.num * c.den * b.den = a.num * b.den * c.den := by ring
      _ ≤ b.num * a.den * c.den := Nat.mul_le_mul_right _ h1
      _ = b.num * c.den * a.den := by ring
      _ < c.num * b.den * a.den := by
          exact Nat.mul_lt_mul_of_lt_of_le h2 (le_refl a.den) ha
      _ = c.num * a.den * b.den := by ring
  exact Nat.lt_of_mul_lt_mul_right step

/-! ### Minimum and maximum characterizations -/

/-- What the minimum accumulator computes. -/
theorem minListAux_spec : ∀ (l : List ℕ) (m a : ℕ),
    minListAux (some m) l = some a →
    a ≤ m ∧ (a = m ∨ a ∈ l) ∧ ∀ x ∈ l, a ≤ x := by
  intro l
  induction l with
  | nil =>
    intro m a h
    cases h
    exact ⟨le_refl _, Or.inl rfl, by simp⟩
  | cons n t ih =>
    intro m a h
    rw [minListAux] at h
    split at h
    · obtain ⟨h1, h2, h3⟩ := ih n a h
      refine ⟨by omega, ?_, ?_⟩
      · rcases h2 with rfl | h2
        · exact Or.inr (List.mem_cons_self _ _)
        · exact Or.inr (List.mem_cons_of_mem _ h2)
      · intro x hx
        rcases List.mem_cons.mp hx with rfl | hx
        · omega
        · exact h3 x hx
    · obtain ⟨h1, h2, h3⟩ := ih m a h
      refine ⟨h1, ?_, ?_⟩
      · rcases h2 with rfl | h2
        · exact Or.inl rfl
        · exact Or.inr (List.mem_cons_of_mem _ h2)
      · intro x hx
        rcases List.mem_cons.mp hx with rfl | hx
        · omega
        · exact h3 x hx

/-- The minimum accumulator never loses its value. -/
theorem minListAux_isSome : ∀ (l : List ℕ) (m : ℕ),
    (minListAux (some m) l).isSome = true := by
  intro l
  induction l with
  | nil => intro m; rfl
  | cons n t ih =>
    intro m
    rw [minListAux]
    split
    · exact ih n
    · exact ih m

/-- The list minimum is a member and a lower bound. -/
theorem minList_spec (l : List ℕ) (a : ℕ) (h : minList l = some a) :
    a ∈ l ∧ ∀ x ∈ l, a ≤ x := by
  cases l with
  | nil => cases h
  | cons n t =>
    rw [minList, minListAux] at h
    obtain ⟨h1, h2, h3⟩ := minListAux_spec t n a h
    refine ⟨?_, ?_⟩
    · rcases h2 with rfl | h2
      · exact List.mem_cons_self _ _
      · exact List.mem_cons_of_mem _ h2
    · intro x hx
      rcases List.mem_cons.mp hx with rfl | hx
      · exact h1
      · exact h3 x hx

/-- A member that bounds the list below is the minimum. -/
theorem minList_eq_some (l : List ℕ) (b : ℕ) (hmem : b ∈ l)
    (hlb : ∀ x ∈ l, b ≤ x) : minList l = some b := by
  cases l with
  | nil => cases hmem
  | cons n t =>
    cases h : minList (n :: t) with
    | none =>
      rw [minList, minListAux] at h
      have := minListAux_isSome t n
      rw [h] at this
      cases this
    | some a =>
      obtain ⟨ha, hub⟩ := minList_spec _ _ h
      have h1 : a ≤ b := hub b hmem
      have h2 : b ≤ a := hlb a ha
      have hab : a = b := by omega
      rw [hab]

/-- What the maximum accumulator computes. -/
theorem maxListAux_spec : ∀ (l : List ℕ) (m a : ℕ),
    maxListAux (some m) l = some a →
    m ≤ a ∧ (a = m ∨ a ∈ l) ∧ ∀ x ∈ l, x ≤ a := by
  intro l
  induction l with
  | nil =>
    intro m a h
    cases h
    exact ⟨le_refl _, Or.inl rfl, by simp⟩
  | cons n t ih =>
    intro m a h
    rw [maxListAux] at h
    split at h
    · obtain ⟨h1, h2, h3⟩ := ih n a h
      refine ⟨by omega, ?_, ?_⟩
      · rcases h2 with rfl | h2
        · exact Or.inr (List.mem_cons_self _ _)
        · exact Or.inr (List.mem_cons_of_mem _ h2)
      · intro x hx
        rcases List.mem_cons.mp hx with rfl | hx
        · omega
        · exact h3 x hx
    · obtain ⟨h1, h2, h3⟩ := ih m a h
      refine ⟨h1, ?_, ?_⟩
      · rcases h2 with rfl | h2
        · exact Or.inl rfl
        · exact Or.inr (List.mem_cons_of_mem _ h2)
      · intro x hx
        rcases List.mem_cons.mp hx with rfl | hx
        · omega
        · exact h3 x hx

/-- The maximum accumulator never loses its value. -/
theorem maxListAux_isSome : ∀ (l : List ℕ) (m : ℕ),
    (maxListAux (some m) l).isSome = true := by
  intro l
  induction l with
  | nil => intro m; rfl
  | cons n t ih =>
    intro m
    rw [maxListAux]
    split
    · exact ih n
    · exact ih m

/-- The list maximum is a member and an upper bound. -/
theorem maxList_spec (l : List ℕ) (a : ℕ) (h : maxList l = some a) :
    a ∈ l ∧ ∀ x ∈ l, x ≤ a := by
  cases l with
  | nil => cases h
  | cons n t =>
    rw [maxList, maxListAux] at h
    obtain ⟨h1, h2, h3⟩ := maxListAux_spec t n a h
    refine ⟨?_, ?_⟩
    · rcases h2 with rfl | h2
      · exact List.mem_cons_self _ _
      · exact List.mem_cons_of_mem _ h2
    · intro x hx
      rcases List.mem_cons.mp hx with rfl | hx
      · exact h1
      · exact h3 x hx

/-- A member that bounds the list above is the maximum. -/
theorem maxList_eq_some (l : List ℕ) (b : ℕ) (hmem : b ∈ l)
    (hub : ∀ x ∈ l, x ≤ b) : maxList l = some b := by
  cases l with
  | nil => cases hmem
  | cons n t =>
    cases h : maxList (n :: t) with
    | none =>
      rw [maxList, maxListAux] at h
      have := maxListAux_isSome t n
      rw [h] at this
      cases this
    | some a =>
      obtain ⟨ha, hb⟩ := maxList_spec _ _ h
      have h1 : b ≤ a := hb b hmem
      have h2 : a ≤ b := hub a ha
      have hab : a = b := by omega
      rw [hab]

/-! ### Dark-coordinate and sweep bookkeeping lemmas -/

/-- Membership in the dark-coordinate list. -/
theorem mem_darkCoords (r : Raster) (yx : ℕ × ℕ) :
    yx ∈ darkCoords r ↔ yx.1 < r.h ∧ yx.2 < r.w ∧ r.px yx.1 yx.2 = true := by
  obtain ⟨y, x⟩ := yx
  rw [darkCoords, List.mem_flatten]
  constructor
  · rintro ⟨l, hl, hx⟩
    obtain ⟨y', hy', rfl⟩ := List.mem_map.mp hl
    obtain ⟨x', hx', heq⟩ := List.mem_map.mp hx
    obtain ⟨hxr, hpx⟩ := List.mem_filter.mp hx'
    cases heq
    exact ⟨List.mem_range.mp hy', List.mem_range.mp hxr, hpx⟩
  · rintro ⟨hy, hx, hpx⟩
    refine ⟨(List.filter (fun x => r.px y x) (List.range r.w)).map
        (fun x => (y, x)), ?_, ?_⟩
    · exact List.mem_map.mpr ⟨y, List.mem_range.mpr hy, rfl⟩
    · exact List.mem_map.mpr
        ⟨x, List.mem_filter.mpr ⟨List.mem_range.mpr hx, hpx⟩, rfl⟩

/-- A successful structure analysis entails positive raster dimensions. -/
theorem analyze_pos (ref : Raster) (fit : QRFit)
    (h : analyzeQRStructure ref = some fit) : 0 < ref.w * ref.h := by
  rw [analyzeQRStructure] at h
  split at h
  case _ minY maxY minX maxX hmy hMy hmx hMx =>
    obtain ⟨hmem, _⟩ := minList_spec _ _ hmy
    obtain ⟨yx, hyx, rfl⟩ := List.mem_map.mp hmem
    obtain ⟨h1, h2, _⟩ := (mem_darkCoords ref yx).mp hyx
    have : 0 < ref.w := by omega
    have : 0 < ref.h := by omega
    positivity
  case _ =>
    cases h

/-- Every evaluated combination's similarity divides by the reference
pixel count. -/
theorem evalCombo_den (qrm : QRPrimitive) (p : String) (ref : Raster)
    (c : Combo) (r : MatchResult) (h : evalCombo qrm p ref c = some r) :
    r.similarity.den = ref.w * ref.h := by
  rw [evalCombo] at h
  split at h
  · cases h
  · cases h
    rfl

/-- Scores of a grid headed by an unevaluable combination. -/
theorem evalScores_cons_none {qrm : QRPrimitive} {p : String} {ref : Raster}
    {c : Combo} (rest : List Combo) (h : evalCombo qrm p ref c = none) :
    evalScores qrm p ref (c :: rest) = evalScores qrm p ref rest := by
  simp [evalScores, List.filterMap_cons, h]

/-- Scores of a grid headed by an evaluated combination. -/
theorem evalScores_cons_some {qrm : QRPrimitive} {p : String} {ref : Raster}
    {c : Combo} {r : MatchResult} (rest : List Combo)
    (h : evalCombo qrm p ref c = some r) :
    evalScores qrm p ref (c :: rest) = r.similarity :: evalScores qrm p ref rest := by
  simp [evalScores, List.filterMap_cons, h]

/-- First hit of a grid headed by an unevaluable combination. -/
theorem firstHit_cons_none {qrm : QRPrimitive} {p : String} {ref : Raster}
    {c : Combo} (rest : List Combo) (h : evalCombo qrm p ref c = none) :
    firstHit qrm p ref (c :: rest) = firstHit qrm p ref rest := by
  simp [firstHit, List.findSome?_cons, h]

/-- First hit of a grid headed by a below-threshold evaluation. -/
theorem firstHit_cons_miss {qrm : QRPrimitive} {p : String} {ref : Raster}
    {c : Combo} {r : MatchResult} (rest : List Combo)
    (h : evalCombo qrm p ref c = some r)
    (hθ : nearThreshold.leb r.similarity = false) :
    firstHit qrm p ref (c :: rest) = firstHit qrm p ref rest := by
  simp [firstHit, List.findSome?_cons, h, hθ]

/-- First hit of a grid headed by a threshold-reaching evaluation. -/
theorem firstHit_cons_hit {qrm : QRPrimitive} {p : String} {ref : Raster}
    {c : Combo} {r : MatchResult} (rest : List Combo)
    (h : evalCombo qrm p ref c = some r)
    (hθ : nearThreshold.leb r.similarity = true) :
    firstHit qrm p ref (c :: rest) = some r := by
  simp [firstHit, List.findSome?_cons, h, hθ]

/-- Sweep step past an unevaluable combination. -/
theorem searchLoop_cons_none {qrm : QRPrimitive} {p : String} {ref : Raster}
    {c : Combo} (rest : List Combo) (bs : Frac) (best : Option MatchResult)
    (h : evalCombo qrm p ref c = none) :
    searchLoop qrm p ref (c :: rest) bs best = searchLoop qrm p ref rest bs best := by
  rw [searchLoop, h]

/-- Sweep step: an improving, threshold-reaching evaluation exits. -/
theorem searchLoop_cons_hit {qrm : QRPrimitive} {p : String} {ref : Raster}
    {c : Combo} {r : MatchResult} (rest : List Combo) (bs : Frac)
    (best : Option MatchResult) (h : evalCombo qrm p ref c = some r)
    (himp : bs.ltb r.similarity = true)
    (hθ : nearThreshold.leb r.similarity = true) :
    searchLoop qrm p ref (c :: rest) bs best = some r := by
  rw [searchLoop, h]
  simp [himp, hθ]

/-- Sweep step: an improving, below-threshold evaluation updates the best
and continues. -/
theorem searchLoop_cons_improve {qrm : QRPrimitive} {p : String} {ref : Raster}
    {c : Combo} {r : MatchResult} (rest : List Combo) (bs : Frac)
    (best : Option MatchResult) (h : evalCombo qrm p ref c = some r)
    (himp : bs.ltb r.similarity = true)
    (hθ : nearThreshold.leb r.similarity = false) :
    searchLoop qrm p ref (c :: rest) bs best
      = searchLoop qrm p ref rest r.similarity (some r) := by
  rw [searchLoop, h]
  simp [himp, hθ]

/-- Sweep step: a non-improving evaluation is discarded. -/
theorem searchLoop_cons_noimp {qrm : QRPrimitive} {p : String} {ref : Raster}
    {c : Combo} {r : MatchResult} (rest : List Combo) (bs : Frac)
    (best : Option MatchResult) (h : evalCombo qrm p ref c = some r)
    (himp : bs.ltb r.similarity = false) :
    searchLoop qrm p ref (c :: rest) bs best = searchLoop qrm p ref rest bs best := by
  rw [searchLoop, h]
  simp [himp]

/-- Every evaluated score's denominator is the reference pixel count. -/
theorem mem_evalScores_den (qrm : QRPrimitive) (p : String) (ref : Raster)
    (grid : List Combo) (s : Frac) (h : s ∈ evalScores qrm p ref grid) :
    s.den = ref.w * ref.h := by
  obtain ⟨r, hr, rfl⟩ := List.mem_map.mp h
  obtain ⟨c, _, hc⟩ := List.mem_filterMap.mp hr
  exact evalCombo_den qrm p ref c r hc

/-- A first hit is an evaluated, threshold-reaching score. -/
theorem firstHit_spec (qrm : QRPrimitive) (p : String) (ref : Raster) :
    ∀ (grid : List Combo) (r : MatchResult),
      firstHit qrm p ref grid = some r →
      r.similarity ∈ evalScores qrm p ref grid
      ∧ nearThreshold.leb r.similarity = true := by
  intro grid
  induction grid with
  | nil =>
    intro r h
    cases h
  | cons c rest ih =>
    intro r h
    cases hec : evalCombo qrm p ref c with
    | none =>
      rw [firstHit_cons_none rest hec] at h
      rw [evalScores_cons_none rest hec]
      exact ih r h
    | some rr =>
      cases hθ : nearThreshold.leb rr.similarity with
      | true =>
        rw [firstHit_cons_hit rest hec hθ] at h
        cases h
        rw [evalScores_cons_some rest hec]
        exact ⟨List.mem_cons_self _ _, hθ⟩
      | false =>
        rw [firstHit_cons_miss rest hec hθ] at h
        rw [evalScores_cons_some rest hec]
        obtain ⟨h1, h2⟩ := ih r h
        exact ⟨List.mem_cons_of_mem _ h1, h2⟩

/-- With no hit in the grid, every evaluated score misses the threshold. -/
theorem firstHit_none_scores (qrm : QRPrimitive) (p : String) (ref : Raster) :
    ∀ (grid : List Combo), firstHit qrm p ref grid = none →
      ∀ s ∈ evalScores qrm p ref grid, nearThreshold.leb s = false := by
  intro grid
  induction grid with
  | nil =>
    intro _ s hs
    cases hs
  | cons c rest ih =>
    intro h s hs
    cases hec : evalCombo qrm p ref c with
    | none =>
      rw [firstHit_cons_none rest hec] at h
      rw [evalScores_cons_none rest hec] at hs
      exact ih h s hs
    | some rr =>
      cases hθ : nearThreshold.leb rr.similarity with
      | true =>
        rw [firstHit_cons_hit rest hec hθ] at h
        cases h
      | false =>
        rw [firstHit_cons_miss rest hec hθ] at h
        rw [evalScores_cons_some rest hec] at hs
        rcases List.mem_cons.mp hs with rfl | hs
        · exact hθ
        · exact ih h s hs

/-- The sweep stops at the first threshold-reaching combination and returns
its result. -/
theorem searchLoop_firstHit (qrm : QRPrimitive) (p : String) (ref : Raster)
    (hwh : 0 < ref.w * ref.h) :
    ∀ (grid : List Combo) (bs : Frac) (best : Option MatchResult)
      (r : MatchResult),
      bs.ltb nearThreshold = true →
      firstHit qrm p ref grid = some r →
      searchLoop qrm p ref grid bs best = some r := by
  intro grid
  induction grid with
  | nil =>
    intro bs best r _ hfh
    cases hfh
  | cons c rest ih =>
    intro bs best r hbs hfh
    cases hec : evalCombo qrm p ref c with
    | none =>
      rw [firstHit_cons_none rest hec] at hfh
      rw [searchLoop_cons_none rest bs best hec]
      exact ih bs best r hbs hfh
    | some rr =>
      have hden : rr.similarity.den = ref.w * ref.h :=
        evalCombo_den qrm p ref c rr hec
      cases hθ : nearThreshold.leb rr.similarity with
      | true =>
        rw [firstHit_cons_hit rest hec hθ] at hfh
        cases hfh
        have himp : bs.ltb r.similarity = true :=
          Frac.ltb_leb_trans (by rw [hden]; exact hwh) hbs hθ
        exact searchLoop_cons_hit rest bs best hec himp hθ
      | false =>
        rw [firstHit_cons_miss rest hec hθ] at hfh
        cases himp : bs.ltb rr.similarity with
        | true =>
          rw [searchLoop_cons_improve rest bs best hec himp hθ]
          exact ih rr.similarity (some rr) r (Frac.ltb_of_leb_false hθ) hfh
        | false =>
          rw [searchLoop_cons_noimp rest bs best hec himp]
          exact ih bs best r hbs hfh

/-- A sweep that returns nothing kept its (empty) incoming best and saw no
score above the incoming floor. -/
theorem searchLoop_none_spec (qrm : QRPrimitive) (p : String) (ref : Raster) :
    ∀ (grid : List Combo) (bs : Frac) (best : Option MatchResult),
      searchLoop qrm p ref grid bs best = none →
      best = none ∧ ∀ s ∈ evalScores qrm p ref grid, s.leb bs = true := by
  intro grid
  induction grid with
  | nil =>
    intro bs best h
    exact ⟨h, by intro s hs; cases hs⟩
  | cons c rest ih =>
    intro bs best h
    cases hec : evalCombo qrm p ref c with
    | none =>
      rw [searchLoop_cons_none rest bs best hec] at h
      obtain ⟨h1, h2⟩ := ih bs best h
      rw [evalScores_cons_none rest hec]
      exact ⟨h1, h2⟩
    | some rr =>
      cases himp : bs.ltb rr.similarity with
      | true =>
        cases hθ : nearThreshold.leb rr.similarity with
        | true =>
          rw [searchLoop_cons_hit rest bs best hec himp hθ] at h
          cases h
        | false =>
          rw [searchLoop_cons_improve rest bs best hec himp hθ] at h
          obtain ⟨h1, _⟩ := ih rr.similarity (some rr) h
          cases h1
      | false =>
        rw [searchLoop_cons_noimp rest bs best hec himp] at h
        obtain ⟨h1, h2⟩ := ih bs best h
        rw [evalScores_cons_some rest hec]
        refine ⟨h1, ?_⟩
        intro s hs
        rcases List.mem_cons.mp hs with rfl | hs
        · exact Frac.leb_of_ltb_false himp
        · exact h2 s hs

/-- With no threshold hit in the grid, a returned result either is the
incoming best (with no score above the floor) or is an evaluated score
that strictly improves the floor and dominates every evaluated score. -/
theorem searchLoop_noHit_spec (qrm : QRPrimitive) (p : String) (ref : Raster)
    (hwh : 0 < ref.w * ref.h) :
    ∀ (grid : List Combo) (bs : Frac) (best : Option MatchResult)
      (r : MatchResult),
      0 < bs.den →
      firstHit qrm p ref grid = none →
      searchLoop qrm p ref grid bs best = some r →
      (best = some r ∧ ∀ s ∈ evalScores qrm p ref grid, s.leb bs = true)
      ∨ (r.similarity ∈ evalScores qrm p ref grid
          ∧ bs.ltb r.similarity = true
          ∧ ∀ s ∈ evalScores qrm p ref grid, s.leb r.similarity = true) := by
  intro grid
  induction grid with
  | nil =>
    intro bs best r _ _ h
    exact Or.inl ⟨h, by intro s hs; cases hs⟩
  | cons c rest ih =>
    intro bs best r hbs hfh h
    cases hec : evalCombo qrm p ref c with
    | none =>
      rw [firstHit_cons_none rest hec] at hfh
      rw [searchLoop_cons_none rest bs best hec] at h
      rw [evalScores_cons_none rest hec]
      exact ih bs best r hbs hfh h
    | some rr =>
      have hden : rr.similarity.den = ref.w * ref.h :=
        evalCombo_den qrm p ref c rr hec
      cases hθ : nearThreshold.leb rr.similarity with
      | true =>
        rw [firstHit_cons_hit rest hec hθ] at hfh
        cases hfh
      | false =>
        rw [firstHit_cons_miss rest hec hθ] at hfh
        rw [evalScores_cons_some rest hec]
        cases himp : bs.ltb rr.similarity with
        | true =>
          rw [searchLoop_cons_improve rest bs best hec himp hθ] at h
          rcases ih rr.similarity (some rr) r (by rw [hden]; exact hwh) hfh h with
            ⟨h1, h2⟩ | ⟨h1, h2, h3⟩
          · cases h1
            refine Or.inr ⟨List.mem_cons_self _ _, himp, ?_⟩
            intro s hs
            rcases List.mem_cons.mp hs with rfl | hs
            · exact Frac.leb_refl _
            · exact h2 s hs
          · have hsden : r.similarity.den = ref.w * ref.h :=
              mem_evalScores_den qrm p ref rest _ h1
            refine Or.inr ⟨List.mem_cons_of_mem _ h1, ?_, ?_⟩
            · exact Frac.ltb_leb_trans (by rw [hsden]; exact hwh) himp
                (Frac.leb_of_ltb h2)
            · intro s hs
              rcases List.mem_cons.mp hs with rfl | hs
              · exact Frac.leb_of_ltb h2
              · exact h3 s hs
        | false =>
          rw [searchLoop_cons_noimp rest bs best hec himp] at h
          rcases ih bs best r hbs hfh h with ⟨h1, h2⟩ | ⟨h1, h2, h3⟩
          · refine Or.inl ⟨h1, ?_⟩
            intro s hs
            rcases List.mem_cons.mp hs with rfl | hs
            · exact Frac.leb_of_ltb_false himp
            · exact h2 s hs
          · refine Or.inr ⟨List.mem_cons_of_mem _ h1, h2, ?_⟩
            intro s hs
            rcases List.mem_cons.mp hs with rfl | hs
            · exact Frac.leb_of_ltb
                (Frac.leb_ltb_trans (by rw [hden]; exact hwh)
                  (Frac.leb_of_ltb_false himp) h2)
            · exact h3 s hs

/-! ### Claim C3 -/

/-- Claim C3 (amended): the sweep stops at the first grid combination that
reaches the 99.9 threshold and returns exactly that combination's result;
any returned result is an actually evaluated combination's score; when no
combination reaches the threshold, a returned result dominates every
evaluated score and is below the threshold (matched false); and the sweep
returns no result only when no evaluated combination scored strictly above
the initial best of 0 (in particular both when nothing was evaluable and —
contrary to the claim as stated — when combinations were evaluated but all
scored 0).  The model is a total function: the caught per-combination
exceptions never abort the sweep. -/
theorem c3_search_result_shape (qrm : QRPrimitive) (p : String) (ref : Raster) :
    (∀ r, firstHit qrm p ref (gridOf ref) = some r →
        findExactParameters qrm p ref = some r)
    ∧ (∀ r, findExactParameters qrm p ref = some r →
        r.similarity ∈ evalScores qrm p ref (gridOf ref))
    ∧ (firstHit qrm p ref (gridOf ref) = none →
        ∀ r, findExactParameters qrm p ref = some r →
          (∀ s ∈ evalScores qrm p ref (gridOf ref), s.leb r.similarity = true)
          ∧ nearThreshold.leb r.similarity = false)
    ∧ (findExactParameters qrm p ref = none →
        ∀ s ∈ evalScores qrm p ref (gridOf ref), s.leb zeroPercent = true) := by
  cases hana : analyzeQRStructure ref with
  | none =>
    have hfind : findExactParameters qrm p ref = none := by
      rw [findExactParameters, hana]
    have hgrid : gridOf ref = [] := by
      rw [gridOf, hana]
    rw [hfind, hgrid]
    refine ⟨?_, ?_, ?_, ?_⟩
    · intro r h
      cases h
    · intro r h
      cases h
    · intro _ r h
      cases h
    · intro _ s hs
      cases hs
  | some fit =>
    have hwh : 0 < ref.w * ref.h := analyze_pos ref fit hana
    have hfind : findExactParameters qrm p ref
        = searchLoop qrm p ref (combosOf fit) zeroPercent none := by
      rw [findExactParameters, hana]
    have hgrid : gridOf ref = combosOf fit := by
      rw [gridOf, hana]
    rw [hfind, hgrid]
    have hz : zeroPercent.ltb nearThreshold = true := by decide
    have hzden : 0 < zeroPercent.den := by decide
    refine ⟨?_, ?_, ?_, ?_⟩
    · intro r h
      exact searchLoop_firstHit qrm p ref hwh _ _ _ r hz h
    · intro r h
      cases hfh : firstHit qrm p ref (combosOf fit) with
      | some r0 =>
        have hsl := searchLoop_firstHit qrm p ref hwh _ zeroPercent none r0 hz hfh
        rw [hsl] at h
        cases h
        exact (firstHit_spec qrm p ref _ _ hfh).1
      | none =>
        rcases searchLoop_noHit_spec qrm p ref hwh _ _ _ r hzden hfh h with
          ⟨h1, _⟩ | ⟨h1, _, _⟩
        · cases h1
        · exact h1
    · intro hfh r h
      rcases searchLoop_noHit_spec qrm p ref hwh _ _ _ r hzden hfh h with
        ⟨h1, _⟩ | ⟨h1, h2, h3⟩
      · cases h1
      · exact ⟨h3, firstHit_none_scores qrm p ref _ hfh _ h1⟩
    · intro h
      exact (searchLoop_none_spec qrm p ref _ _ _ h).2

/-- Witness for C3 at a concrete reference whose first grid combination
reaches the threshold: the sweep returns exactly that first hit. -/
theorem c3_search_result_shape_witness :
    firstHit qrmDark samplePayload refDark42 (gridOf refDark42)
      = some ⟨1, ECLevel.L, 1, 0, ⟨176400, 1764⟩⟩
    ∧ findExactParameters qrmDark samplePayload refDark42
      = some ⟨1, ECLevel.L, 1, 0, ⟨176400, 1764⟩⟩ :=
  ⟨by decide,
    (c3_search_result_shape qrmDark samplePayload refDark42).1 _ (by decide)⟩

/-- Counterexample to claim C3 as stated: against an all-dark 21x21
reference, the all-light primitive's combinations evaluate (12 of them,
all with similarity 0), no combination reaches the threshold, and the
claim then promises the maximum-similarity MatchResult with matched false —
but `find_exact_parameters` returns `None` (similarity 0 never exceeds the
initial `best_similarity = 0`, so `best_match` is never set). -/
theorem c3_search_none_counterexample :
    findExactParameters qrmWhite samplePayload refDark21 = none
    ∧ evalScores qrmWhite samplePayload refDark21 (gridOf refDark21) ≠ []
    ∧ (∀ s ∈ evalScores qrmWhite samplePayload refDark21 (gridOf refDark21),
        s = ⟨0, 441⟩) := by
  refine ⟨by decide, by decide, by decide⟩

/-! ### Pixel characterizations of built rasters -/

/-- Reading a mapped range list. -/
theorem getD_map_range {α : Type} (g : ℕ → α) (H y : ℕ) (d : α) :
    ((List.range H).map g).getD y d = if y < H then g y else d := by
  rcases Nat.lt_or_ge y H with h | h
  · rw [List.getD_eq_getElem?_getD, List.getElem?_map, List.getElem?_range h]
    simp [h]
  · have hlen : ((List.range H).map g).length = H := by simp
    rw [List.getD_eq_getElem?_getD, List.getElem?_eq_none (by omega)]
    simp [Nat.not_lt.mpr h]

/-- Pixels of a built raster. -/
theorem mkRaster_px (W H : ℕ) (f : ℕ → ℕ → Bool) (y x : ℕ) :
    (mkRaster W H f).px y x = if y < H ∧ x < W then f y x else false := by
  show (((List.range H).map (fun y => (List.range W).map (fun x => f y x))).getD y []).getD x false = _
  rw [getD_map_range]
  rcases Nat.lt_or_ge y H with hy | hy
  · rw [if_pos hy, getD_map_range]
    rcases Nat.lt_or_ge x W with hx | hx
    · rw [if_pos hx, if_pos ⟨hy, hx⟩]
    · rw [if_neg (Nat.not_lt.mpr hx), if_neg ?_]
      rintro ⟨_, hx'⟩
      omega
  · rw [if_neg (Nat.not_lt.mpr hy)]
    rw [if_neg ?_]
    · rfl
    · rintro ⟨hy', _⟩
      omega

/-- Dark pixels of a rendered version-1 raster. -/
theorem renderRaster_dark_iff (M : ℕ → ℕ → Bool) (m b y x : ℕ) :
    ((renderRaster M 21 m b).px y x = true) ↔
      (b * m ≤ y ∧ y < (21 + b) * m ∧ b * m ≤ x ∧ x < (21 + b) * m
        ∧ M ((y - b * m) / m) ((x - b * m) / m) = true) := by
  rw [renderRaster, mkRaster_px]
  have hin : (21 + b) * m ≤ (21 + 2 * b) * m :=
    Nat.mul_le_mul_right m (by omega)
  constructor
  · intro h
    split at h
    · split at h
      · rcases ‹_ ∧ _ ∧ _ ∧ _› with ⟨h1, h2, h3, h4⟩
        exact ⟨h1, h2, h3, h4, h⟩
      · cases h
    · cases h
  · rintro ⟨h1, h2, h3, h4, h5⟩
    rw [if_pos ⟨by omega, by omega⟩, if_pos ⟨h1, h2, h3, h4⟩]
    exact h5

/-- Row membership among the dark rows. -/
theorem mem_darkYs (r : Raster) (y : ℕ) :
    y ∈ darkYs r ↔ ∃ x, y < r.h ∧ x < r.w ∧ r.px y x = true := by
  rw [darkYs]
  constructor
  · intro h
    obtain ⟨yx, hyx, rfl⟩ := List.mem_map.mp h
    obtain ⟨h1, h2, h3⟩ := (mem_darkCoords r yx).mp hyx
    exact ⟨yx.2, h1, h2, h3⟩
  · rintro ⟨x, h1, h2, h3⟩
    exact List.mem_map.mpr ⟨(y, x), (mem_darkCoords r (y, x)).mpr ⟨h1, h2, h3⟩, rfl⟩

/-- Column membership among the dark columns. -/
theorem mem_darkXs (r : Raster) (x : ℕ) :
    x ∈ darkXs r ↔ ∃ y, y < r.h ∧ x < r.w ∧ r.px y x = true := by
  rw [darkXs]
  constructor
  · intro h
    obtain ⟨yx, hyx, rfl⟩ := List.mem_map.mp h
    obtain ⟨h1, h2, h3⟩ := (mem_darkCoords r yx).mp hyx
    exact ⟨yx.1, h1, h2, h3⟩
  · rintro ⟨y, h1, h2, h3⟩
    exact List.mem_map.mpr ⟨(y, x), (mem_darkCoords r (y, x)).mpr ⟨h1, h2, h3⟩, rfl⟩

/-! ### Bounding box of a rendered raster -/

/-- A rendered version-1 raster with dark modules on all four outer edges
has the dark bounding box of its symbol area. -/
theorem renderRaster_bbox (M : ℕ → ℕ → Bool) (m b : ℕ) (hm : 1 ≤ m)
    (h0 : ∃ j, j < 21 ∧ M 0 j = true) (h20 : ∃ j, j < 21 ∧ M 20 j = true)
    (hc0 : ∃ i, i < 21 ∧ M i 0 = true) (hc20 : ∃ i, i < 21 ∧ M i 20 = true) :
    minList (darkYs (renderRaster M 21 m b)) = some (b * m)
    ∧ maxList (darkYs (renderRaster M 21 m b)) = some ((21 + b) * m - 1)
    ∧ minList (darkXs (renderRaster M 21 m b)) = some (b * m)
    ∧ maxList (darkXs (renderRaster M 21 m b)) = some ((21 + b) * m - 1) := by
  have hm0 : 0 < m := hm
  have hWH : (renderRaster M 21 m b).h = (21 + 2 * b) * m := rfl
  have hWW : (renderRaster M 21 m b).w = (21 + 2 * b) * m := rfl
  have hA : (21 + b) * m = 21 * m + b * m := by ring
  have hA2 : (21 + 2 * b) * m = 21 * m + 2 * (b * m) := by ring
  have hB : 21 ≤ 21 * m := Nat.le_mul_of_pos_right 21 hm0
  have px21 : ∀ j, j < 21 → (b * m + j * m - b * m) / m = j := by
    intro j _
    have : b * m + j * m - b * m = j * m := by omega
    rw [this, Nat.mul_div_cancel j hm0]
  have pxLast : ((21 + b) * m - 1 - b * m) / m = 20 := by
    have h1 : (21 + b) * m - 1 - b * m = (m - 1) + 20 * m := by
      have : 21 * m = 20 * m + m := by ring
      omega
    rw [h1, Nat.add_mul_div_right _ _ hm0, Nat.div_eq_of_lt (by omega)]
  have hmemY0 : b * m ∈ darkYs (renderRaster M 21 m b) := by
    obtain ⟨j, hj, hMj⟩ := h0
    have hjm : j * m < 21 * m := Nat.mul_lt_mul_of_lt_of_le hj (le_refl m) hm0
    rw [mem_darkYs, hWH, hWW]
    refine ⟨b * m + j * m, by omega, by omega, ?_⟩
    rw [renderRaster_dark_iff]
    refine ⟨le_refl _, by omega, by omega, by omega, ?_⟩
    rw [Nat.sub_self, Nat.zero_div, px21 j hj]
    exact hMj
  have hmemYE : (21 + b) * m - 1 ∈ darkYs (renderRaster M 21 m b) := by
    obtain ⟨j, hj, hMj⟩ := h20
    have hjm : j * m < 21 * m := Nat.mul_lt_mul_of_lt_of_le hj (le_refl m) hm0
    rw [mem_darkYs, hWH, hWW]
    refine ⟨b * m + j * m, by omega, by omega, ?_⟩
    rw [renderRaster_dark_iff]
    refine ⟨by omega, by omega, by omega, by omega, ?_⟩
    rw [pxLast, px21 j hj]
    exact hMj
  have hmemX0 : b * m ∈ darkXs (renderRaster M 21 m b) := by
    obtain ⟨i, hi, hMi⟩ := hc0
    have him : i * m < 21 * m := Nat.mul_lt_mul_of_lt_of_le hi (le_refl m) hm0
    rw [mem_darkXs, hWH, hWW]
    refine ⟨b * m + i * m, by omega, by omega, ?_⟩
    rw [renderRaster_dark_iff]
    refine ⟨by omega, by omega, le_refl _, by omega, ?_⟩
    rw [Nat.sub_self, Nat.zero_div, px21 i hi]
    exact hMi
  have hmemXE : (21 + b) * m - 1 ∈ darkXs (renderRaster M 21 m b) := by
    obtain ⟨i, hi, hMi⟩ := hc20
    have him : i * m < 21 * m := Nat.mul_lt_mul_of_lt_of_le hi (le_refl m) hm0
    rw [mem_darkXs, hWH, hWW]
    refine ⟨b * m + i * m, by omega, by omega, ?_⟩
    rw [renderRaster_dark_iff]
    refine ⟨by omega, by omega, by omega, by omega, ?_⟩
    rw [px21 i hi, pxLast]
    exact hMi
  refine ⟨?_, ?_, ?_, ?_⟩
  · refine minList_eq_some _ _ hmemY0 ?_
    intro y hy
    obtain ⟨x, _, _, hpx⟩ := (mem_darkYs _ y).mp hy
    obtain ⟨hb1, _, _, _, _⟩ := (renderRaster_dark_iff M m b y x).mp hpx
    exact hb1
  · refine maxList_eq_some _ _ hmemYE ?_
    intro y hy
    obtain ⟨x, _, _, hpx⟩ := (mem_darkYs _ y).mp hy
    obtain ⟨_, hb2, _, _, _⟩ := (renderRaster_dark_iff M m b y x).mp hpx
    omega
  · refine minList_eq_some _ _ hmemX0 ?_
    intro x hx
    obtain ⟨y, _, _, hpx⟩ := (mem_darkXs _ x).mp hx
    obtain ⟨_, _, hb3, _, _⟩ := (renderRaster_dark_iff M m b y x).mp hpx
    exact hb3
  · refine maxList_eq_some _ _ hmemXE ?_
    intro x hx
    obtain ⟨y, _, _, hpx⟩ := (mem_darkXs _ x).mp hx
    obtain ⟨_, _, _, hb4, _⟩ := (renderRaster_dark_iff M m b y x).mp hpx
    omega

/-! ### The candidate fit loop on a rendered raster -/

/-- Grid counts agree on pointwise-equal predicates. -/
theorem countGrid_congr (W H : ℕ) (p q : ℕ → ℕ → Bool)
    (h : ∀ y, y < H → ∀ x, x < W → p y x = q y x) :
    countGrid W H p = countGrid W H q := by
  unfold countGrid
  congr 1
  apply List.map_congr_left
  intro y hy
  apply List.countP_congr
  intro x hx
  rw [h y (List.mem_range.mp hy) x (List.mem_range.mp hx)]

/-- A predicate false on the whole grid is never counted. -/
theorem countGrid_eq_zero (W H : ℕ) (p : ℕ → ℕ → Bool)
    (h : ∀ y, y < H → ∀ x, x < W → p y x = false) : countGrid W H p = 0 := by
  unfold countGrid
  apply List.sum_eq_zero
  intro n hn
  obtain ⟨y, hy, rfl⟩ := List.mem_map.mp hn
  rw [List.countP_eq_zero]
  intro x hx
  rw [h y (List.mem_range.mp hy) x (List.mem_range.mp hx)]
  simp

/-- Cropped pixels of a rendered version-1 raster read the module
matrix. -/
theorem renderRaster_crop (M : ℕ → ℕ → Bool) (m b : ℕ) (hm : 1 ≤ m) :
    ∀ y, y < 21 * m → ∀ x, x < 21 * m →
      (renderRaster M 21 m b).px (b * m + y) (b * m + x) = M (y / m) (x / m) := by
  have hm0 : 0 < m := hm
  intro y hy x hx
  have hA : (21 + b) * m = 21 * m + b * m := by ring
  have hA2 : (21 + 2 * b) * m = 21 * m + 2 * (b * m) := by ring
  rw [renderRaster, mkRaster_px, if_pos ⟨by omega, by omega⟩,
    if_pos ⟨by omega, by omega, by omega, by omega⟩]
  have e1 : b * m + y - b * m = y := by omega
  have e2 : b * m + x - b * m = x := by omega
  rw [e1, e2]

/-- On a rendered raster the candidate-21 module regions are internally
consistent: zero error contribution. -/
theorem regionErr_render_zero (M : ℕ → ℕ → Bool) (m b : ℕ) (hm : 1 ≤ m)
    (i j : ℕ) (hi : i < 21) (hj : j < 21) :
    regionErr (fun y x => (renderRaster M 21 m b).px (b * m + y) (b * m + x))
      m (21 * m) i j = 0 := by
  have hm0 : 0 < m := hm
  have hspan : min ((j + 1) * m) (21 * m) - j * m = m := by
    have h1 : (j + 1) * m ≤ 21 * m := Nat.mul_le_mul_right m (by omega)
    have h2 : (j + 1) * m = j * m + m := by ring
    rw [min_eq_left h1]
    omega
  have hpx : ∀ y, y < m → ∀ x, x < m →
      (renderRaster M 21 m b).px (b * m + (i * m + y)) (b * m + (j * m + x))
        = M i j := by
    intro y hy x hx
    have him : i * m + y < 21 * m := by
      have : (i + 1) * m ≤ 21 * m := Nat.mul_le_mul_right m (by omega)
      have : (i + 1) * m = i * m + m := by ring
      omega
    have hjm : j * m + x < 21 * m := by
      have : (j + 1) * m ≤ 21 * m := Nat.mul_le_mul_right m (by omega)
      have : (j + 1) * m = j * m + m := by ring
      omega
    rw [renderRaster_crop M m b hm _ him _ hjm]
    have eI : (i * m + y) / m = i := by
      have h' : i * m + y = y + i * m := by ring
      rw [h', Nat.add_mul_div_right _ _ hm0, Nat.div_eq_of_lt hy]
      omega
    have eJ : (j * m + x) / m = j := by
      have h' : j * m + x = x + j * m := by ring
      rw [h', Nat.add_mul_div_right _ _ hm0, Nat.div_eq_of_lt hx]
      omega
    rw [eI, eJ]
  rw [regionErr, regionTotal, regionDark, hspan]
  cases hMij : M i j with
  | true =>
    have hdark : countGrid m m (fun y x =>
        (renderRaster M 21 m b).px (b * m + (i * m + y)) (b * m + (j * m + x)))
        = m * m := by
      apply countGrid_eq_total
      intro y hy x hx
      rw [hpx y hy x hx, hMij]
    rw [hdark]
    have hcond : 255 * (m * m - m * m) < 128 * (m * m) := by
      have : 0 < m * m := Nat.mul_pos hm0 hm0
      omega
    rw [if_pos hcond]
    omega
  | false =>
    have hdark : countGrid m m (fun y x =>
        (renderRaster M 21 m b).px (b * m + (i * m + y)) (b * m + (j * m + x)))
        = 0 := by
      apply countGrid_eq_zero
      intro y hy x hx
      rw [hpx y hy x hx, hMij]
    rw [hdark]
    have hcond : ¬(255 * (m * m - 0) < 128 * (m * m)) := by
      have h1 : 128 * (m * m) ≤ 255 * (m * m) := Nat.mul_le_mul_right _ (by omega)
      omega
    rw [if_neg hcond]

/-- The candidate-21 total error on a rendered raster is zero. -/
theorem gridErr_render_zero (M : ℕ → ℕ → Bool) (m b : ℕ) (hm : 1 ≤ m) :
    gridErr (fun y x => (renderRaster M 21 m b).px (b * m + y) (b * m + x))
      (21 * m) m (21 * m) 21 = 0 := by
  rw [gridErr]
  apply List.sum_eq_zero
  intro n hn
  obtain ⟨i, hi, rfl⟩ := List.mem_map.mp hn
  apply List.sum_eq_zero
  intro n' hn'
  obtain ⟨j, hj, rfl⟩ := List.mem_map.mp hn'
  split
  · exact regionErr_render_zero M m b hm i j (List.mem_range.mp hi)
      (List.mem_range.mp hj)
  · rfl

/-- The candidate-21 sample count is positive. -/
theorem gridSamples_render_pos (m : ℕ) (hm : 1 ≤ m) :
    0 < gridSamples (21 * m) m (21 * m) 21 := by
  have hm0 : 0 < m := hm
  have hB : m ≤ 21 * m := by omega
  have hrow0 : ((List.range 21).map (fun j =>
      if centerInBounds (21 * m) m 0 j then regionTotal m (21 * m) j else 0)).sum
      ∈ (List.range 21).map (fun i => ((List.range 21).map (fun j =>
        if centerInBounds (21 * m) m i j then regionTotal m (21 * m) j
        else 0)).sum) :=
    List.mem_map.mpr ⟨0, List.mem_range.mpr (by omega), rfl⟩
  have hcell : (if centerInBounds (21 * m) m 0 0 then regionTotal m (21 * m) 0
      else 0) ∈ (List.range 21).map (fun j =>
        if centerInBounds (21 * m) m 0 j then regionTotal m (21 * m) j else 0) :=
    List.mem_map.mpr ⟨0, List.mem_range.mpr (by omega), rfl⟩
  have hcenter : centerInBounds (21 * m) m 0 0 = true := by
    rw [centerInBounds]
    have h1 : m / 2 < m := Nat.div_lt_self hm0 (by omega)
    simp only [Nat.zero_mul, Nat.zero_add, Bool.and_eq_true, decide_eq_true_eq]
    omega
  have htot : regionTotal m (21 * m) 0 = m * m := by
    have e1 : (0 + 1) * m = m := by ring
    have e0 : (0 : ℕ) * m = 0 := by ring
    rw [regionTotal, e1, e0, min_eq_left hB, Nat.sub_zero]
  have hpos : 0 < (if centerInBounds (21 * m) m 0 0 then regionTotal m (21 * m) 0
      else 0) := by
    rw [hcenter, if_pos rfl, htot]
    exact Nat.mul_pos hm0 hm0
  have h1 := List.single_le_sum (l := (List.range 21).map (fun j =>
      if centerInBounds (21 * m) m 0 j then regionTotal m (21 * m) j else 0))
    (fun x _ => Nat.zero_le x) _ hcell
  have h2 := List.single_le_sum (l := (List.range 21).map (fun i =>
      ((List.range 21).map (fun j =>
        if centerInBounds (21 * m) m i j then regionTotal m (21 * m) j
        else 0)).sum)) (fun x _ => Nat.zero_le x) _ hrow0
  rw [gridSamples]
  omega

/-- The first candidate (21 modules) fits a rendered raster perfectly. -/
theorem fitStep_first (qrPx : ℕ → ℕ → Bool) (m : ℕ) (_hm : 1 ≤ m)
    (herr : gridErr qrPx (21 * m) m (21 * m) 21 = 0)
    (hsam : 0 < gridSamples (21 * m) m (21 * m) 21) :
    fitStep qrPx (21 * m) (21 * m) none 21
      = some (21, m, ⟨0, gridSamples (21 * m) m (21 * m) 21⟩) := by
  have hmod : 21 * m % 21 = 0 := Nat.mul_mod_right 21 m
  have hdiv : 21 * m / 21 = m := Nat.mul_div_cancel_left m (by omega)
  have hs0 : gridSamples (21 * m) m (21 * m) 21 ≠ 0 := by omega
  simp only [fitStep, hmod, hdiv, herr, ne_eq, not_true_eq_false, if_false,
    hs0, if_true]

/-- Later candidates cannot strictly beat a zero error rate. -/
theorem fitStep_keep (qrPx : ℕ → ℕ → Bool) (qs rW a c S n : ℕ) :
    fitStep qrPx qs rW (some (a, c, ⟨0, S⟩)) n = some (a, c, ⟨0, S⟩) := by
  rw [fitStep]
  split
  · rfl
  · simp only []
    by_cases hs : gridSamples qs (qs / n) rW n = 0
    · rw [if_pos hs]
    · rw [if_neg hs]
      simp [Frac.ltb]

/-- The candidate loop on a rendered raster settles on 21 modules of the
true module size with zero error. -/
theorem candidatesFold_render (M : ℕ → ℕ → Bool) (m b : ℕ) (hm : 1 ≤ m) :
    moduleCandidates.foldl
      (fitStep (fun y x => (renderRaster M 21 m b).px (b * m + y) (b * m + x))
        (21 * m) (21 * m)) none
      = some (21, m, ⟨0, gridSamples (21 * m) m (21 * m) 21⟩) := by
  rw [moduleCandidates, List.foldl_cons,
    fitStep_first _ m hm (gridErr_render_zero M m b hm)
      (gridSamples_render_pos m hm)]
  simp only [List.foldl_cons, List.foldl_nil, fitStep_keep]

/-- Structure analysis of a rendered version-1 raster with dark modules on
all four outer edges recovers 21 modules, the true module size, version 1
and the true quiet zone. -/
theorem analyzeQRStructure_render (M : ℕ → ℕ → Bool) (m b : ℕ) (hm : 1 ≤ m)
    (h0 : ∃ j, j < 21 ∧ M 0 j = true) (h20 : ∃ j, j < 21 ∧ M 20 j = true)
    (hc0 : ∃ i, i < 21 ∧ M i 0 = true) (hc20 : ∃ i, i < 21 ∧ M i 20 = true) :
    analyzeQRStructure (renderRaster M 21 m b)
      = some ⟨21, m, ⟨0, gridSamples (21 * m) m (21 * m) 21⟩, 1,
          b * m, b * m, (21 + b) * m - 1, (21 + b) * m - 1, 21 * m, b * m,
          (21 + 2 * b) * m, (21 + 2 * b) * m⟩ := by
  obtain ⟨hminY, hmaxY, hminX, hmaxX⟩ :=
    renderRaster_bbox M m b hm h0 h20 hc0 hc20
  have hqs : (21 + b) * m - 1 - b * m + 1 = 21 * m := by
    have hA : (21 + b) * m = 21 * m + b * m := by ring
    have hB : 21 ≤ 21 * m := by omega
    omega
  rw [analyzeQRStructure, hminY, hmaxY, hminX, hmaxX]
  simp only []
  rw [hqs, candidatesFold_render M m b hm]
  simp only []
  rfl

/-- A successful version-1 rendering implies a positive box size, a payload
within capacity, and the rendered raster shape. -/
theorem renderOpt_v1_elim (qrm : QRPrimitive) (p : String) (ec : ECLevel)
    (m b : ℕ) (img : Raster) (h : renderOpt qrm p 1 ec m b = some img) :
    1 ≤ m ∧ p.length ≤ numericCapacity 1 ec
      ∧ img = renderRaster (qrm p 1 ec) 21 m b := by
  rw [renderOpt] at h
  rw [if_neg (by omega : ¬((1 : ℕ) < 1 ∨ 40 < 1))] at h
  by_cases hm : m < 1
  · rw [if_pos hm] at h
    cases h
  · rw [if_neg hm] at h
    by_cases hcap : numericCapacity 1 ec < p.length
    · rw [if_pos hcap] at h
      cases h
    · rw [if_neg hcap] at h
      refine ⟨by omega, by omega, ?_⟩
      have h21 : modulesOfVersion 1 = 21 := rfl
      rw [h21] at h
      exact (Option.some.inj h).symm

/-- The generating combination is in the sweep grid recovered from the
structure fit. -/
theorem mem_combosOf_exact (fit : QRFit) (ec : ECLevel) (m b : ℕ) (hm : 1 ≤ m)
    (hv : fit.version = 1) (hms : fit.moduleSize = m)
    (hqz : fit.quietZone = b * m) :
    ((1 : ℕ), ec, m, b) ∈ combosOf fit := by
  have hver : (1 : ℕ) ∈ (if 0 < fit.version then [fit.version] else [1, 2, 3]) := by
    rw [hv, if_pos (by omega : (0 : ℕ) < 1)]
    exact List.mem_singleton.mpr rfl
  have hecm : ec ∈ [ECLevel.L, ECLevel.M, ECLevel.Q, ECLevel.H] := by
    cases ec <;> simp
  have hsm : m ∈ [fit.moduleSize - 1, fit.moduleSize, fit.moduleSize + 1] := by
    rw [hms]
    simp
  have hbm : b ∈ (if fit.quietZone / fit.moduleSize = 0 then [0, 1]
      else [fit.quietZone / fit.moduleSize - 1, fit.quietZone / fit.moduleSize,
        fit.quietZone / fit.moduleSize + 1]) := by
    have hdivb : fit.quietZone / fit.moduleSize = b := by
      rw [hqz, hms]
      exact Nat.mul_div_cancel b hm
    rw [hdivb]
    by_cases hb : b = 0
    · subst hb
      simp
    · rw [if_neg hb]
      simp
  rw [combosOf]
  exact List.mem_flatMap.mpr ⟨1, hver, List.mem_flatMap.mpr ⟨ec, hecm,
    List.mem_flatMap.mpr ⟨m, hsm, List.mem_map.mpr ⟨b, hbm, rfl⟩⟩⟩⟩

/-- Comparing a raster against itself scores full agreement. -/
theorem exactCompare_self (r : Raster) :
    exactCompare r r = ⟨r.w * r.h * 100, r.w * r.h⟩ := by
  rw [exactCompare]
  simp only [eq_self_iff_true, and_self, if_true, agreementPercent]
  rw [countGrid_eq_total r.w r.h _ (fun y _ x _ => beq_self_eq_true (r.px y x))]

/-- A full-agreement score reaches the 99.9 early-exit threshold. -/
theorem nearThreshold_leb_full (T : ℕ) :
    nearThreshold.leb ⟨T * 100, T⟩ = true := by
  simp only [Frac.leb, nearThreshold, decide_eq_true_eq]
  omega

/-- Ratio comparison transfers to the rational values when both denominators
are positive. -/
theorem Frac.toRat_le_of_leb (a b : Frac) (ha : 0 < a.den) (hb : 0 < b.den)
    (h : a.leb b = true) : a.toRat ≤ b.toRat := by
  simp only [Frac.leb, decide_eq_true_eq] at h
  rw [Frac.toRat, Frac.toRat,
    div_le_div_iff₀ (by exact_mod_cast ha) (by exact_mod_cast hb)]
  exact_mod_cast h

/-- If some grid combination evaluates to a threshold-reaching result, the
sweep returns a threshold-reaching result (the first such hit). -/
theorem search_hits_of_hit (qrm : QRPrimitive) (p : String) (ref : Raster)
    (grid : List Combo) (c : Combo) (r₀ : MatchResult)
    (hwh : 0 < ref.w * ref.h) (hmem : c ∈ grid)
    (hec : evalCombo qrm p ref c = some r₀)
    (hθ : nearThreshold.leb r₀.similarity = true) :
    ∃ r, searchLoop qrm p ref grid zeroPercent none = some r
      ∧ nearThreshold.leb r.similarity = true
      ∧ r.similarity.den = ref.w * ref.h := by
  have hmemS : r₀.similarity ∈ evalScores qrm p ref grid := by
    rw [evalScores]
    exact List.mem_map.mpr ⟨r₀, List.mem_filterMap.mpr ⟨c, hmem, hec⟩, rfl⟩
  cases hfh : firstHit qrm p ref grid with
  | none =>
    have hfalse := firstHit_none_scores qrm p ref grid hfh _ hmemS
    rw [hθ] at hfalse
    cases hfalse
  | some r =>
    obtain ⟨hrs, hrθ⟩ := firstHit_spec qrm p ref grid r hfh
    exact ⟨r, searchLoop_firstHit qrm p ref hwh grid zeroPercent none r
      (by decide) hfh, hrθ, mem_evalScores_den qrm p ref grid _ hrs⟩

/-- Claim C2 (amended): when a version-1 rendering of payload `p` succeeds
and the encoded matrix has a dark module on each of its four outer edges,
searching the rendered raster returns a result whose similarity reaches
99.9 percent; the returned parameters are the first grid combination
reaching the threshold and need not equal the generating ones. -/
theorem c2_search_self_similarity (qrm : QRPrimitive) (p : String)
    (ec : ECLevel) (m b : ℕ) (img : Raster)
    (hrender : renderOpt qrm p 1 ec m b = some img)
    (h0 : ∃ j, j < 21 ∧ qrm p 1 ec 0 j = true)
    (h20 : ∃ j, j < 21 ∧ qrm p 1 ec 20 j = true)
    (hc0 : ∃ i, i < 21 ∧ qrm p 1 ec i 0 = true)
    (hc20 : ∃ i, i < 21 ∧ qrm p 1 ec i 20 = true) :
    ∃ r, findExactParameters qrm p img = some r
      ∧ (999 : ℚ) / 10 ≤ r.similarity.toRat := by
  obtain ⟨hm, hcap, rfl⟩ := renderOpt_v1_elim qrm p ec m b img hrender
  have hwpos : 0 < (21 + 2 * b) * m := Nat.mul_pos (by omega) hm
  have hwh : 0 < (renderRaster (qrm p 1 ec) 21 m b).w
      * (renderRaster (qrm p 1 ec) 21 m b).h := by
    have hw : (renderRaster (qrm p 1 ec) 21 m b).w = (21 + 2 * b) * m := rfl
    have hh : (renderRaster (qrm p 1 ec) 21 m b).h = (21 + 2 * b) * m := rfl
    rw [hw, hh]
    exact Nat.mul_pos hwpos hwpos
  obtain ⟨fit, hfit, hv, hms, hqz⟩ : ∃ fit,
      analyzeQRStructure (renderRaster (qrm p 1 ec) 21 m b) = some fit
        ∧ fit.version = 1 ∧ fit.moduleSize = m ∧ fit.quietZone = b * m :=
    ⟨_, analyzeQRStructure_render (qrm p 1 ec) m b hm h0 h20 hc0 hc20,
      rfl, rfl, rfl⟩
  have hmem := mem_combosOf_exact fit ec m b hm hv hms hqz
  have hec : evalCombo qrm p (renderRaster (qrm p 1 ec) 21 m b) (1, ec, m, b)
      = some ⟨1, ec, m, b,
        ⟨(renderRaster (qrm p 1 ec) 21 m b).w
            * (renderRaster (qrm p 1 ec) 21 m b).h * 100,
          (renderRaster (qrm p 1 ec) 21 m b).w
            * (renderRaster (qrm p 1 ec) 21 m b).h⟩⟩ := by
    simp only [evalCombo, hrender, eq_self_iff_true, and_self, if_true,
      exactCompare_self]
  obtain ⟨r, hloop, hrθ, hden⟩ := search_hits_of_hit qrm p
    (renderRaster (qrm p 1 ec) 21 m b) (combosOf fit) (1, ec, m, b) _
    hwh hmem hec (nearThreshold_leb_full _)
  refine ⟨r, ?_, ?_⟩
  · simp only [findExactParameters, hfit]
    exact hloop
  · have h910 : (999 : ℚ) / 10 = nearThreshold.toRat := by
      rw [nearThreshold, Frac.toRat]
      norm_num
    rw [h910]
    exact Frac.toRat_le_of_leb nearThreshold r.similarity (by decide)
      (by rw [hden]; exact hwh) hrθ

/-- Witness: the all-dark version-1 matrix at box size 2, border 0 renders
to the 42-pixel reference, and the search on it reaches 99.9 percent. -/
theorem c2_search_self_similarity_witness :
    ∃ r, findExactParameters qrmDark samplePayload refDark42 = some r
      ∧ (999 : ℚ) / 10 ≤ r.similarity.toRat :=
  c2_search_self_similarity qrmDark samplePayload ECLevel.L 2 0 refDark42
    (by rfl) ⟨0, by decide, rfl⟩ ⟨0, by decide, rfl⟩ ⟨0, by decide, rfl⟩
    ⟨0, by decide, rfl⟩

/-- Counterexample to C2's parameter-equality half: the all-dark matrix
rendered at box size 2 with border 0 is searched successfully — the sweep
reaches the 99.9 threshold — but the returned combination uses box size 1
(the 21-pixel rendering upsampled pixel-perfectly by nearest-neighbor), not
the generating box size 2. -/
theorem c2_search_counterexample :
    renderOpt qrmDark samplePayload 1 ECLevel.L 2 0 = some refDark42
    ∧ findExactParameters qrmDark samplePayload refDark42
        = some ⟨1, ECLevel.L, 1, 0, ⟨176400, 1764⟩⟩
    ∧ nearThreshold.leb (⟨176400, 1764⟩ : Frac) = true
    ∧ (⟨1, ECLevel.L, 1, 0, ⟨176400, 1764⟩⟩ : MatchResult).boxSize ≠ 2 := by
  refine ⟨by rfl, by decide, by decide, by decide⟩

end RiseGym
